import Mathlib

/-!
# Verification of the booking/payment/QR core of the sports-activity backend

Shallow embedding of the reservation, payment-reconciliation and
entry-credential logic of the Express/Mongoose backend:

* `createBooking`, `cancelBooking` — bookingController
* `createPaymentOrder`, `verifyPayment`, `paymentWebhook` — paymentController
* `scanQR`, `generateQRData` / `decryptQRData` — qrController
* booking-number generation — createBooking, steps 12–13
* AES-256-CBC credential encryption — qrController helpers

JS strings are modelled as Lean `String` (a wrapper of `List Char`);
character-level operations (`slice`, `padStart`, `parseInt`, `split`,
hex encoding) are defined on `List Char`.  JS `Date` values are modelled
as integer day numbers (all comparisons in the source are date-only
after `setHours(0,0,0,0)`); instants (`paidAt`, `checkInTime`, …) are
modelled as integers.  Monetary amounts and participant counts are
modelled as `Int` (JS numbers; the source only adds, subtracts and
multiplies them).  Database reads (`findById`, `findOne`) are modelled
as lookups in an explicit state, and external collaborators (Razorpay
order creation, notification delivery, the HMAC function, randomness)
are parameters of the operations.
-/

namespace VSC

set_option maxRecDepth 40000


/-! ## JS string helpers -/

/-- Decimal digit to its character, as produced by JS `String(n)`. -/
def digitChr (d : Nat) : Char :=
  match d with
  | 0 => '0' | 1 => '1' | 2 => '2' | 3 => '3' | 4 => '4'
  | 5 => '5' | 6 => '6' | 7 => '7' | 8 => '8' | 9 => '9'
  | _ => '0'

/-- Fuel-driven decimal rendering of a natural number (big-endian). -/
def toCharsF : Nat → Nat → List Char
  | 0, _ => []
  | fuel + 1, n =>
    if n < 10 then [digitChr n]
    else toCharsF fuel (n / 10) ++ [digitChr (n % 10)]

/-- JS `String(n)` for a natural number. -/
def natToChars (n : Nat) : List Char := toCharsF (n + 1) n

/-- JS `String(i)` for an integer. -/
def intToChars (i : Int) : List Char :=
  if i < 0 then '-' :: natToChars i.natAbs else natToChars i.natAbs

/-- JS `s.padStart (w, '0')`. -/
def padZero (w : Nat) (s : List Char) : List Char :=
  List.replicate (w - s.length) '0' ++ s

/-- Value of a list of decimal digit characters (most significant first). -/
def digitsVal (l : List Char) : Nat :=
  l.foldl (fun a c => 10 * a + (c.toNat - 48)) 0

/-- JS `parseInt(s)` (radix 10): skip whitespace, optional sign, then the
maximal digit prefix; `none` models `NaN`. -/
def parseIntJS (l : List Char) : Option Int :=
  match l.dropWhile (fun c => c.isWhitespace) with
  | [] => none
  | c :: r =>
    if c = '-' then
      let d := r.takeWhile (fun x => x.isDigit)
      if d.isEmpty then none else some (-(digitsVal d : Int))
    else if c = '+' then
      let d := r.takeWhile (fun x => x.isDigit)
      if d.isEmpty then none else some (digitsVal d : Int)
    else
      let d := (c :: r).takeWhile (fun x => x.isDigit)
      if d.isEmpty then none else some (digitsVal d : Int)

/-- JS `s.trim()` on a character list. -/
def trimL (l : List Char) : List Char :=
  ((l.dropWhile (fun c => c.isWhitespace)).reverse.dropWhile
    (fun c => c.isWhitespace)).reverse

/-- JS `s.trim()`. -/
def trimJS (s : String) : String := String.mk (trimL s.data)

/-- JS `s.toLowerCase()` (ASCII, as used on e-mail addresses here). -/
def lowerJS (s : String) : String := String.mk (s.data.map Char.toLower)

/-- JS `s.slice(-n)` on a character list. -/
def sliceLast (n : Nat) (l : List Char) : List Char := l.drop (l.length - n)

/-! ## Data model (Mongoose schemas `Activity` and `Booking`) -/

/-- One configured time slot of an activity (`activitySchema.timeSlots`). -/
structure Slot where
  startTime : String
  endTime : String
  availableSpots : Int
deriving DecidableEq

/-- The fields of an `Activity` document read by the booking/payment core. -/
structure Activity where
  title : String
  venue : String
  address : String
  city : String
  thumbnailImage : String
  status : String
  isAvailable : Bool
  startDate : Int
  endDate : Int
  availableDays : List String
  timeSlots : List Slot
  price : Int
  priceAfterDiscount : Option Int
  maxParticipants : Int
deriving DecidableEq

/-- `bookingSchema.bookingStatus` enum. -/
inductive BookingStatus
  | Initiated | Confirmed | Cancelled | Completed | NoShow
deriving DecidableEq

/-- `bookingSchema.paymentStatus` enum. -/
inductive PaymentStatus
  | Pending | Completed | Failed | Refunded
deriving DecidableEq

/-- `bookingSchema.activitySnapshot`. -/
structure Snapshot where
  title : String
  venue : String
  address : String
  city : String
  thumbnailImage : String
deriving DecidableEq

/-- A `Booking` document. -/
structure Booking where
  bookingNumber : String
  activity : String
  customerName : String
  customerEmail : String
  customerPhone : String
  customerAddress : String
  bookingDate : Int
  slotStart : String
  slotEnd : String
  numberOfParticipants : Int
  pricePerPerson : Int
  totalAmount : Int
  discountAmount : Int
  finalAmount : Int
  bookingStatus : BookingStatus
  paymentStatus : PaymentStatus
  transactionId : Option String
  razorpayOrderId : Option String
  razorpayPaymentId : Option String
  razorpaySignature : Option String
  paymentMethod : Option String
  paidAt : Option Int
  qrData : Option String
  qrImage : Option String
  checkedIn : Bool
  checkInTime : Option Int
  checkInBy : Option String
  confirmationDate : Option Int
  cancelledAt : Option Int
  cancellationReason : Option String
  cancelledBy : Option String
  activitySnapshot : Snapshot
deriving DecidableEq

/-- The persistent state: activities and bookings keyed by their ids. -/
structure DB where
  activities : List (String × Activity)
  bookings : List (String × Booking)
deriving DecidableEq

/-- `Activity.findById`. -/
def lookupActivity (db : DB) (id : String) : Option Activity :=
  (db.activities.find? (fun p => p.1 == id)).map (·.2)

/-- `Booking.findById`. -/
def lookupBooking (db : DB) (id : String) : Option Booking :=
  (db.bookings.find? (fun p => p.1 == id)).map (·.2)

/-- `Booking.findOne({ razorpayOrderId })`. -/
def findBookingByOrder (db : DB) (orderId : String) :
    Option (String × Booking) :=
  db.bookings.find? (fun p => p.2.razorpayOrderId == some orderId)

/-- Persist a modified activity (`activity.save()`). -/
def saveActivity (db : DB) (id : String) (a : Activity) : DB :=
  { db with activities :=
      db.activities.map (fun p => if p.1 == id then (p.1, a) else p) }

/-- Persist a modified booking (`booking.save()`). -/
def saveBooking (db : DB) (id : String) (b : Booking) : DB :=
  { db with bookings :=
      db.bookings.map (fun p => if p.1 == id then (p.1, b) else p) }

/-- Replace the element at index `i` (models `arr[i] = f(arr[i])`). -/
def updateAt : Nat → (α → α) → List α → List α
  | _, _, [] => []
  | 0, f, x :: xs => f x :: xs
  | i + 1, f, x :: xs => x :: updateAt i f xs

/-- The `find` / `findIndex` pair of `createBooking` (both use the same
predicate, so they locate the same first matching slot and its index). -/
def findWithIdx (p : Slot → Bool) : List Slot → Option (Nat × Slot)
  | [] => none
  | s :: ss =>
    if p s then some (0, s)
    else (findWithIdx p ss).map (fun r => (r.1 + 1, r.2))

/-! ## Booking-number generation (`createBooking`, steps 12–13)

The source finds today's last booking, takes `parseInt` of the last four
characters of its booking number, adds one (defaulting to 1), and renders
`BK-{YY}{MM}{DD}-{String(seq).padStart(4,'0')}`. -/

/-- The `{YY}{MM}{DD}` date key built from `now` (`getFullYear().toString()
.slice(-2)`, `String(getMonth()+1).padStart(2,'0')`,
`String(getDate()).padStart(2,'0')`). -/
def dateKey (year monthIdx day : Nat) : List Char :=
  sliceLast 2 (natToChars year) ++ padZero 2 (natToChars (monthIdx + 1)) ++
    padZero 2 (natToChars day)

/-- The sequence number chosen for the next booking, from today's last
booking number (if any): `parseInt(bn.slice(-4)) + 1`, defaulting to 1. -/
def nextSeq (lastNum : Option (List Char)) : Int :=
  match lastNum with
  | none => 1
  | some bn =>
    match parseIntJS (sliceLast 4 bn) with
    | none => 1
    | some ls => ls + 1

/-- One booking-number allocation:
`BK-{ymd}-{String(sequence).padStart(4, '0')}`. -/
def genNum (ymd : List Char) (lastNum : Option (List Char)) : List Char :=
  ['B', 'K', '-'] ++ ymd ++ ['-'] ++ padZero 4 (intToChars (nextSeq lastNum))

/-! ## `createBooking` (bookingController) -/

/-- The request body of `POST /api/bookings`.  A JS-falsy field (absent
value, empty string, zero) is modelled by `none`, `""` or `0`. -/
structure CreateReq where
  activityId : String
  bookingDate : Option Int
  slotStart : String
  slotEnd : String
  slotPresent : Bool
  numberOfParticipants : Int
  custPresent : Bool
  custName : String
  custEmail : String
  custPhone : String
  custAddress : String
deriving DecidableEq

/-- The outcomes of `createBooking` (each constructor is one `return` of
the source, carrying the payload fields the response reports). -/
inductive CreateRes
  | missingFields
  | customerIncomplete
  | slotMissingTimes
  | activityNotFound
  | activityUnavailable
  | pastDate
  | dateOutOfRange (rangeStart rangeEnd : Int)
  | dayNotAvailable (day : String) (days : List String)
  | invalidSlot
  | notEnoughSpots (requested available : Int)
  | tooManyParticipants (maxP : Int)
  | created (bookingId : String)
deriving DecidableEq

/-- Weekday name of an epoch-day number (day 0 = 1970-01-01, a Thursday);
models `toLocaleDateString('en-US', { weekday: 'long' })`. -/
def weekdayName (d : Int) : String :=
  [ "Thursday", "Friday", "Saturday", "Sunday",
    "Monday", "Tuesday", "Wednesday" ].getD (d.emod 7).toNat ""

/-- `POST /api/bookings` (`createBooking`).  `today` is the server date,
`(nowY, nowM, nowD)` the server clock's year / 0-based month / day,
`lastNumToday` the result of the `Booking.findOne` query for today's most
recent booking number, and `newId` the id Mongo assigns to the created
document. -/
def createBooking (db : DB) (req : CreateReq) (today : Int)
    (nowY nowM nowD : Nat) (lastNumToday : Option (List Char))
    (newId : String) : CreateRes × DB :=
  if req.activityId = "" ∨ req.bookingDate.isNone ∨ req.slotPresent = false ∨
      req.numberOfParticipants = 0 ∨ req.custPresent = false then
    (CreateRes.missingFields, db)
  else if req.custName = "" ∨ req.custEmail = "" ∨ req.custPhone = "" ∨
      req.custAddress = "" then
    (CreateRes.customerIncomplete, db)
  else if req.slotStart = "" ∨ req.slotEnd = "" then
    (CreateRes.slotMissingTimes, db)
  else
    match lookupActivity db req.activityId with
    | none => (CreateRes.activityNotFound, db)
    | some a =>
      if a.status ≠ "Active" ∨ a.isAvailable = false then
        (CreateRes.activityUnavailable, db)
      else
        let bd := req.bookingDate.getD 0
        if bd < today then (CreateRes.pastDate, db)
        else if bd < a.startDate ∨ a.endDate < bd then
          (CreateRes.dateOutOfRange a.startDate a.endDate, db)
        else if (a.availableDays.contains (weekdayName bd)) = false then
          (CreateRes.dayNotAvailable (weekdayName bd) a.availableDays, db)
        else
          match findWithIdx
              (fun s => s.startTime == req.slotStart &&
                s.endTime == req.slotEnd) a.timeSlots with
          | none => (CreateRes.invalidSlot, db)
          | some (idx, ts) =>
            if ts.availableSpots < req.numberOfParticipants then
              (CreateRes.notEnoughSpots req.numberOfParticipants
                ts.availableSpots, db)
            else if a.maxParticipants < req.numberOfParticipants then
              (CreateRes.tooManyParticipants a.maxParticipants, db)
            else
              let pricePerPerson :=
                match a.priceAfterDiscount with
                | some pad => if pad = 0 then a.price else pad
                | none => a.price
              let totalAmount := pricePerPerson * req.numberOfParticipants
              let discountAmount :=
                (a.price - pricePerPerson) * req.numberOfParticipants
              let newSlots :=
                updateAt idx
                  (fun s =>
                    { s with availableSpots :=
                        s.availableSpots - req.numberOfParticipants })
                  a.timeSlots
              let a' := { a with timeSlots := newSlots }
              let db1 := saveActivity db req.activityId a'
              let bn := genNum (dateKey nowY nowM nowD) lastNumToday
              let b : Booking :=
                { bookingNumber := String.mk bn
                  activity := req.activityId
                  customerName := trimJS req.custName
                  customerEmail := lowerJS (trimJS req.custEmail)
                  customerPhone := trimJS req.custPhone
                  customerAddress := trimJS req.custAddress
                  bookingDate := bd
                  slotStart := req.slotStart
                  slotEnd := req.slotEnd
                  numberOfParticipants := req.numberOfParticipants
                  pricePerPerson := pricePerPerson
                  totalAmount := totalAmount
                  discountAmount := discountAmount
                  finalAmount := totalAmount
                  bookingStatus := BookingStatus.Initiated
                  paymentStatus := PaymentStatus.Pending
                  transactionId := none
                  razorpayOrderId := none
                  razorpayPaymentId := none
                  razorpaySignature := none
                  paymentMethod := none
                  paidAt := none
                  qrData := none
                  qrImage := none
                  checkedIn := false
                  checkInTime := none
                  checkInBy := none
                  confirmationDate := none
                  cancelledAt := none
                  cancellationReason := none
                  cancelledBy := none
                  activitySnapshot :=
                    { title := a.title, venue := a.venue,
                      address := a.address, city := a.city,
                      thumbnailImage := a.thumbnailImage } }
              (CreateRes.created newId,
                { db1 with bookings := db1.bookings ++ [(newId, b)] })

/-! ## `createPaymentOrder` (paymentController) -/

/-- The outcomes of `POST /api/payments/create-order`. -/
inductive OrderRes
  | missingBookingId
  | bookingNotFound
  | cannotPay (status : BookingStatus)
  | alreadyProcessed (payStatus : PaymentStatus)
  | orderCreated (orderId : String) (amount : Int)
deriving DecidableEq

/-- `createPaymentOrder`.  `orderId` is the opaque id returned by the
gateway's `razorpay.orders.create` call. -/
def createPaymentOrder (db : DB) (bookingId : String) (orderId : String) :
    OrderRes × DB :=
  if bookingId = "" then (OrderRes.missingBookingId, db)
  else
    match lookupBooking db bookingId with
    | none => (OrderRes.bookingNotFound, db)
    | some b =>
      if b.bookingStatus ≠ BookingStatus.Initiated then
        (OrderRes.cannotPay b.bookingStatus, db)
      else if b.paymentStatus ≠ PaymentStatus.Pending then
        (OrderRes.alreadyProcessed b.paymentStatus, db)
      else
        (OrderRes.orderCreated orderId (b.finalAmount * 100),
          saveBooking db bookingId
            { b with razorpayOrderId := some orderId })

/-! ## `verifyPayment` (paymentController) -/

/-- The outcomes of `POST /api/payments/verify`. -/
inductive VerifyRes
  | missingData
  | bookingNotFound
  | signatureInvalid
  | verified (bookingStatus : BookingStatus) (payStatus : PaymentStatus)
      (paidAt : Option Int)
deriving DecidableEq

/-- The booking mutation shared by `verifyPayment` and the
`payment.captured` webhook branch, followed by `generateAndSendQR`
(which stores the encrypted token in `qrData` and its rendered image in
`qrImage`; `qrTok` stands for the freshly generated token). -/
def confirmBooking (b : Booking) (paymentId : String) (sig : Option String)
    (method : Option String) (now : Int) (qrTok : String) : Booking :=
  { b with
    paymentStatus := PaymentStatus.Completed
    bookingStatus := BookingStatus.Confirmed
    razorpayPaymentId := some paymentId
    razorpaySignature := sig
    transactionId := some paymentId
    paymentMethod := some (method.getD "Unknown")
    paidAt := some now
    confirmationDate := some now
    qrData := some qrTok
    qrImage := some qrTok }

/-- `verifyPayment`.  `hmac secret msg` stands for
`crypto.createHmac('sha256', secret).update(msg).digest('hex')`;
`fetchedMethod` is the payment method reported by
`razorpay.payments.fetch` (`none` when the fetch fails); the Bool of the
result records whether `generateAndSendQR` was invoked. -/
def verifyPayment (hmac : String → String → String) (keySecret : String)
    (db : DB) (orderId paymentId sig bookingId : String)
    (fetchedMethod : Option String) (now : Int) (qrTok : String) :
    VerifyRes × DB × Bool :=
  if orderId = "" ∨ paymentId = "" ∨ sig = "" ∨ bookingId = "" then
    (VerifyRes.missingData, db, false)
  else
    match lookupBooking db bookingId with
    | none => (VerifyRes.bookingNotFound, db, false)
    | some b =>
      let expected := hmac keySecret (orderId ++ "|" ++ paymentId)
      if expected ≠ sig then
        (VerifyRes.signatureInvalid,
          saveBooking db bookingId
            { b with paymentStatus := PaymentStatus.Failed }, false)
      else
        let b' := confirmBooking b paymentId (some sig)
          (some (fetchedMethod.getD "Unknown")) now qrTok
        (VerifyRes.verified b'.bookingStatus b'.paymentStatus b'.paidAt,
          saveBooking db bookingId b', true)

/-! ## `paymentWebhook` (paymentController) -/

/-- `paymentWebhook`.  The webhook is authenticated with a second HMAC,
keyed by `RAZORPAY_WEBHOOK_SECRET` over the raw request body.  Result:
HTTP status code, new state, and whether `generateAndSendQR` ran. -/
def paymentWebhook (hmac : String → String → String)
    (webhookSecret : Option String) (db : DB) (headerSig rawBody : String)
    (event : String) (orderId paymentId : String) (method : Option String)
    (now : Int) (qrTok : String) : Nat × DB × Bool :=
  match webhookSecret with
  | none => (500, db, false)
  | some sec =>
    if hmac sec rawBody ≠ headerSig then (400, db, false)
    else if event = "payment.captured" then
      match findBookingByOrder db orderId with
      | none => (404, db, false)
      | some (bid, b) =>
        if b.paymentStatus = PaymentStatus.Completed then (200, db, false)
        else
          (200, saveBooking db bid
            (confirmBooking b paymentId none method now qrTok), true)
    else if event = "payment.failed" then
      match findBookingByOrder db orderId with
      | some (bid, b) =>
        if b.paymentStatus = PaymentStatus.Pending then
          let db1 := saveBooking db bid
            { b with paymentStatus := PaymentStatus.Failed }
          match lookupActivity db1 b.activity with
          | none => (200, db1, false)
          | some a =>
            match findWithIdx
                (fun s => s.startTime == b.slotStart &&
                  s.endTime == b.slotEnd) a.timeSlots with
            | none => (200, db1, false)
            | some (idx, _) =>
              let newSlots :=
                updateAt idx
                  (fun s =>
                    { s with availableSpots :=
                        s.availableSpots + b.numberOfParticipants })
                  a.timeSlots
              (200, saveActivity db1 b.activity
                { a with timeSlots := newSlots }, false)
        else (200, db, false)
      | none => (200, db, false)
    else (200, db, false)

/-! ## `cancelBooking` (bookingController, admin path) -/

/-- The outcomes of `PATCH /api/bookings/:id/cancel`. -/
inductive CancelRes
  | bookingNotFound
  | cannotCancelCompleted
  | cancelled
deriving DecidableEq

/-- `cancelBooking`.  `reason` is the request's reason string (`""` for a
JS-falsy value, replaced by the default), `userId` the admin. -/
def cancelBooking (db : DB) (bookingId : String) (reason : String)
    (userId : String) (now : Int) : CancelRes × DB :=
  match lookupBooking db bookingId with
  | none => (CancelRes.bookingNotFound, db)
  | some b =>
    if b.paymentStatus = PaymentStatus.Completed then
      (CancelRes.cannotCancelCompleted, db)
    else
      let db1 :=
        match lookupActivity db b.activity with
        | none => db
        | some a =>
          match findWithIdx
              (fun s => s.startTime == b.slotStart &&
                s.endTime == b.slotEnd) a.timeSlots with
          | none => db
          | some (idx, _) =>
            let newSlots :=
              updateAt idx
                (fun s =>
                  { s with availableSpots :=
                      s.availableSpots + b.numberOfParticipants })
                a.timeSlots
            saveActivity db b.activity { a with timeSlots := newSlots }
      (CancelRes.cancelled,
        saveBooking db1 bookingId
          { b with
            bookingStatus := BookingStatus.Cancelled
            cancelledAt := some now
            cancellationReason :=
              some (if reason = "" then "Cancelled by admin" else reason)
            cancelledBy := some userId })

/-! ## `scanQR` (qrController) -/

/-- The outcomes of `POST /api/qr/scan` after the token was decrypted
(decryption of a fixed credential always yields the same embedded
booking id, so a scan of a given credential is `scanQR` at that id). -/
inductive ScanRes
  | bookingNotFound
  | notConfirmed (status : BookingStatus)
  | paymentNotCompleted (payStatus : PaymentStatus)
  | alreadyCheckedIn (checkInTime : Option Int) (checkInBy : Option String)
  | wrongDate (bookingDate : Int)
  | checkInOk (bookingNumber : String) (checkInTime : Int)
deriving DecidableEq

/-- `scanQR`, steps 2–8 (after decryption): look the booking up, check
state, payment, the check-in flag, the date, then stamp the check-in. -/
def scanQR (db : DB) (bookingId : String) (today now : Int)
    (operatorId : String) : ScanRes × DB :=
  match lookupBooking db bookingId with
  | none => (ScanRes.bookingNotFound, db)
  | some b =>
    if b.bookingStatus ≠ BookingStatus.Confirmed then
      (ScanRes.notConfirmed b.bookingStatus, db)
    else if b.paymentStatus ≠ PaymentStatus.Completed then
      (ScanRes.paymentNotCompleted b.paymentStatus, db)
    else if b.checkedIn then
      (ScanRes.alreadyCheckedIn b.checkInTime b.checkInBy, db)
    else if b.bookingDate ≠ today then
      (ScanRes.wrongDate b.bookingDate, db)
    else
      (ScanRes.checkInOk b.bookingNumber now,
        saveBooking db bookingId
          { b with
            checkedIn := true
            checkInTime := some now
            checkInBy := some operatorId
            bookingStatus := BookingStatus.Completed })

/-! ## Characterization of `createBooking` -/

/-- The `pricePerPerson = activity.priceAfterDiscount || activity.price`
computation (JS `||`: a present but zero discounted price is falsy and
falls back to the base price). -/
def pricePerPersonJS (a : Activity) : Int :=
  match a.priceAfterDiscount with
  | some pad => if pad = 0 then a.price else pad
  | none => a.price

/-- The activity after the reservation decrement of step 11. -/
def reservedActivity (a : Activity) (idx : Nat) (n : Int) : Activity :=
  let dec := fun (s : Slot) =>
    { s with availableSpots := s.availableSpots - n }
  { a with timeSlots := updateAt idx dec a.timeSlots }

/-- The booking document persisted by step 13 of `createBooking`. -/
def createdBooking (req : CreateReq) (a : Activity) (bd : Int)
    (nowY nowM nowD : Nat) (lastNum : Option (List Char)) : Booking :=
  { bookingNumber := String.mk (genNum (dateKey nowY nowM nowD) lastNum)
    activity := req.activityId
    customerName := trimJS req.custName
    customerEmail := lowerJS (trimJS req.custEmail)
    customerPhone := trimJS req.custPhone
    customerAddress := trimJS req.custAddress
    bookingDate := bd
    slotStart := req.slotStart
    slotEnd := req.slotEnd
    numberOfParticipants := req.numberOfParticipants
    pricePerPerson := pricePerPersonJS a
    totalAmount := pricePerPersonJS a * req.numberOfParticipants
    discountAmount := (a.price - pricePerPersonJS a) * req.numberOfParticipants
    finalAmount := pricePerPersonJS a * req.numberOfParticipants
    bookingStatus := BookingStatus.Initiated
    paymentStatus := PaymentStatus.Pending
    transactionId := none
    razorpayOrderId := none
    razorpayPaymentId := none
    razorpaySignature := none
    paymentMethod := none
    paidAt := none
    qrData := none
    qrImage := none
    checkedIn := false
    checkInTime := none
    checkInBy := none
    confirmationDate := none
    cancelledAt := none
    cancellationReason := none
    cancelledBy := none
    activitySnapshot :=
      { title := a.title, venue := a.venue, address := a.address,
        city := a.city, thumbnailImage := a.thumbnailImage } }

/-! ## Concrete scenario used by witnesses and counterexamples -/

/-- A concrete stand-in for HMAC-SHA256 (the operations take the HMAC
function as a parameter; any function instantiates them). -/
def exHmac : String → String → String := fun k m => k ++ "#" ++ m

/-- A slot with 5 spots. -/
def exSlot : Slot :=
  { startTime := "10:00", endTime := "11:00", availableSpots := 5 }

/-- An active activity: base price 100, discounted price 80, at most 4
participants per booking, one slot with 5 spots, bookable every day. -/
def exAct : Activity :=
  { title := "Kayaking", venue := "Lake", address := "1 Shore Rd",
    city := "Pune", thumbnailImage := "img", status := "Active",
    isAvailable := true, startDate := 0, endDate := 30000,
    availableDays := ["Sunday", "Monday", "Tuesday", "Wednesday",
      "Thursday", "Friday", "Saturday"],
    timeSlots := [exSlot], price := 100, priceAfterDiscount := some 80,
    maxParticipants := 4 }

/-- State holding only `exAct` under id `"a1"`. -/
def exDB : DB := { activities := [("a1", exAct)], bookings := [] }

/-- A well-formed booking request for `n` participants on day 20500 (a
Monday within the activity's range). -/
def exReq (n : Int) : CreateReq :=
  { activityId := "a1", bookingDate := some 20500, slotStart := "10:00",
    slotEnd := "11:00", slotPresent := true, numberOfParticipants := n,
    custPresent := true, custName := " Bob ", custEmail := "B@x.CO",
    custPhone := "1234567890", custAddress := "2 Hill Rd" }

/-! ## C8 — stored pricing is a pure function of the activity's prices -/

/-- The claim's pricing rule, written from the spec sentence
`pricePerPerson = discountedPrice ?? basePrice` (which takes the
discounted price whenever it is present, including when it is 0). -/
def specPricePerPerson (basePrice : Int) (discounted : Option Int) : Int :=
  discounted.getD basePrice

/-- An activity whose discounted price is 0 (a 100% discount). -/
def exActZero : Activity := { exAct with priceAfterDiscount := some 0 }

/-- State holding only `exActZero` under id `"a1"`. -/
def exDBZero : DB := { activities := [("a1", exActZero)], bookings := [] }

/-- A pending booking as stored by `createBooking` in the concrete
scenario, extracted for reuse by payment-path witnesses. -/
def exBooking : Booking :=
  createdBooking (exReq 3) exAct 20500 2025 9 12 none

/-- State after the concrete booking was created. -/
def exDB1 : DB :=
  (createBooking exDB (exReq 3) 20000 2025 9 12 none "b1").2

/-- State after the concrete booking got its payment order `"o1"`. -/
def exDB2 : DB := (createPaymentOrder exDB1 "b1" "o1").2

/-- State after the client callback confirmed the payment (valid
signature `"ks#o1|p1"`, paid at 5, credential token `"tok1"`). -/
def exDB3 : DB :=
  (verifyPayment exHmac "ks" exDB2 "o1" "p1" "ks#o1|p1" "b1" (some "UPI")
    5 "tok1").2.1

/-- The confirmed booking stored in `exDB3`. -/
def exBookingPaid : Booking :=
  confirmBooking { exBooking with razorpayOrderId := some "o1" } "p1"
    (some "ks#o1|p1") (some "UPI") 5 "tok1"

/-! ## C4 — scanning the same credential twice -/

/-- The booking record stored by a successful `scanQR` check-in. -/
def checkedInBooking (b : Booking) (now : Int) (op : String) : Booking :=
  { b with
    checkedIn := true
    checkInTime := some now
    checkInBy := some op
    bookingStatus := BookingStatus.Completed }

/-! ## C2 — bounds on `availableSpots` under the capacity mutators -/

/-- Every slot of every stored activity has a nonnegative
`availableSpots`. -/
def slotsNonneg (acts : List (String × Activity)) : Prop :=
  ∀ p ∈ acts, ∀ s ∈ p.2.timeSlots, 0 ≤ s.availableSpots

/-- Every stored booking has a nonnegative participant count (the
schema requires `min: 1`). -/
def partsNonneg (bks : List (String × Booking)) : Prop :=
  ∀ p ∈ bks, 0 ≤ p.2.numberOfParticipants

/-- The activity after a capacity release (`availableSpots += n`). -/
def releasedActivity (a : Activity) (idx : Nat) (n : Int) : Activity :=
  let inc := fun (s : Slot) =>
    { s with availableSpots := s.availableSpots + n }
  { a with timeSlots := updateAt idx inc a.timeSlots }

/-! ## C6 — booking numbers allocated within one day

The allocator is `genNum`: it derives the next sequence from the last
four characters of today's most recent booking number.  `dayNums ymd k`
is the list of the first `k` numbers allocated on day `ymd` (each
allocation reads the previous allocation, as the `findOne` query of the
source does under sequential execution). -/

/-- The first `k` booking numbers allocated on day `ymd`. -/
def dayNums (ymd : List Char) : Nat → List (List Char)
  | 0 => []
  | k + 1 => dayNums ymd k ++ [genNum ymd (dayNums ymd k).getLast?]

/-- The intended shape of a booking number with sequence `s`:
`BK-{ymd}-{String(s).padStart(4, '0')}`. -/
def mkNum (ymd : List Char) (s : Nat) : List Char :=
  ['B', 'K', '-'] ++ ymd ++ ['-'] ++ padZero 4 (natToChars s)

/-! ## C9 — the AES-256-CBC credential (qrController helpers)

`generateQRData` encrypts the JSON-serialized payload with
`aes-256-cbc` under a scrypt-derived 32-byte key and a fresh random
16-byte IV, and serializes the credential as
`iv.toString('hex') + ':' + encrypted` (lowercase hex);
`decryptQRData` splits on `':'`, hex-decodes both parts and decrypts.
Below is an executable model of AES-256-CBC (FIPS 197 cipher,
PKCS#7 padding as applied by Node's cipher/decipher) over byte lists;
the payload is modelled as its serialized byte string, the derived key
and the random IV as parameters (both sides derive the same key from
the same configured secret). -/

/-- GF(2^8) doubling modulo the AES polynomial `x^8+x^4+x^3+x+1`. -/
def xtime (x : Nat) : Nat := if x < 128 then 2 * x else (2 * x) ^^^ 283

/-- Russian-peasant GF(2^8) multiplication, fuel-driven. -/
def gmulF : Nat → Nat → Nat → Nat
  | 0, _, _ => 0
  | fuel + 1, a, x =>
    if a = 0 then 0
    else (if a % 2 = 1 then x else 0) ^^^ gmulF fuel (a / 2) (xtime x)

/-- GF(2^8) multiplication by a coefficient below 256. -/
def gmul (a x : Nat) : Nat := gmulF 8 a x

/-- The AES S-box. -/
def sBoxTable : List Nat :=
  [99, 124, 119, 123, 242, 107, 111, 197, 48, 1, 103, 43,
  254, 215, 171, 118, 202, 130, 201, 125, 250, 89, 71, 240,
  173, 212, 162, 175, 156, 164, 114, 192, 183, 253, 147, 38,
  54, 63, 247, 204, 52, 165, 229, 241, 113, 216, 49, 21,
  4, 199, 35, 195, 24, 150, 5, 154, 7, 18, 128, 226,
  235, 39, 178, 117, 9, 131, 44, 26, 27, 110, 90, 160,
  82, 59, 214, 179, 41, 227, 47, 132, 83, 209, 0, 237,
  32, 252, 177, 91, 106, 203, 190, 57, 74, 76, 88, 207,
  208, 239, 170, 251, 67, 77, 51, 133, 69, 249, 2, 127,
  80, 60, 159, 168, 81, 163, 64, 143, 146, 157, 56, 245,
  188, 182, 218, 33, 16, 255, 243, 210, 205, 12, 19, 236,
  95, 151, 68, 23, 196, 167, 126, 61, 100, 93, 25, 115,
  96, 129, 79, 220, 34, 42, 144, 136, 70, 238, 184, 20,
  222, 94, 11, 219, 224, 50, 58, 10, 73, 6, 36, 92,
  194, 211, 172, 98, 145, 149, 228, 121, 231, 200, 55, 109,
  141, 213, 78, 169, 108, 86, 244, 234, 101, 122, 174, 8,
  186, 120, 37, 46, 28, 166, 180, 198, 232, 221, 116, 31,
  75, 189, 139, 138, 112, 62, 181, 102, 72, 3, 246, 14,
  97, 53, 87, 185, 134, 193, 29, 158, 225, 248, 152, 17,
  105, 217, 142, 148, 155, 30, 135, 233, 206, 85, 40, 223,
  140, 161, 137, 13, 191, 230, 66, 104, 65, 153, 45, 15,
  176, 84, 187, 22]

/-- The inverse AES S-box. -/
def invSBoxTable : List Nat :=
  [82, 9, 106, 213, 48, 54, 165, 56, 191, 64, 163, 158,
  129, 243, 215, 251, 124, 227, 57, 130, 155, 47, 255, 135,
  52, 142, 67, 68, 196, 222, 233, 203, 84, 123, 148, 50,
  166, 194, 35, 61, 238, 76, 149, 11, 66, 250, 195, 78,
  8, 46, 161, 102, 40, 217, 36, 178, 118, 91, 162, 73,
  109, 139, 209, 37, 114, 248, 246, 100, 134, 104, 152, 22,
  212, 164, 92, 204, 93, 101, 182, 146, 108, 112, 72, 80,
  253, 237, 185, 218, 94, 21, 70, 87, 167, 141, 157, 132,
  144, 216, 171, 0, 140, 188, 211, 10, 247, 228, 88, 5,
  184, 179, 69, 6, 208, 44, 30, 143, 202, 63, 15, 2,
  193, 175, 189, 3, 1, 19, 138, 107, 58, 145, 17, 65,
  79, 103, 220, 234, 151, 242, 207, 206, 240, 180, 230, 115,
  150, 172, 116, 34, 231, 173, 53, 133, 226, 249, 55, 232,
  28, 117, 223, 110, 71, 241, 26, 113, 29, 41, 197, 137,
  111, 183, 98, 14, 170, 24, 190, 27, 252, 86, 62, 75,
  198, 210, 121, 32, 154, 219, 192, 254, 120, 205, 90, 244,
  31, 221, 168, 51, 136, 7, 199, 49, 177, 18, 16, 89,
  39, 128, 236, 95, 96, 81, 127, 169, 25, 181, 74, 13,
  45, 229, 122, 159, 147, 201, 156, 239, 160, 224, 59, 77,
  174, 42, 245, 176, 200, 235, 187, 60, 131, 83, 153, 97,
  23, 43, 4, 126, 186, 119, 214, 38, 225, 105, 20, 99,
  85, 33, 12, 125]

/-- S-box lookup. -/
def sbox (x : Nat) : Nat := sBoxTable.getD x 0

/-- Inverse S-box lookup. -/
def invSbox (x : Nat) : Nat := invSBoxTable.getD x 0

/-- One column of MixColumns (FIPS 197, § 5.1.3). -/
def mixColL : List Nat → List Nat
  | [a, b, c, d] =>
    [gmul 2 a ^^^ gmul 3 b ^^^ c ^^^ d,
     a ^^^ gmul 2 b ^^^ gmul 3 c ^^^ d,
     a ^^^ b ^^^ gmul 2 c ^^^ gmul 3 d,
     gmul 3 a ^^^ b ^^^ c ^^^ gmul 2 d]
  | l => l

/-- One column of InvMixColumns (FIPS 197, § 5.3.3). -/
def invMixColL : List Nat → List Nat
  | [a, b, c, d] =>
    [gmul 14 a ^^^ gmul 11 b ^^^ gmul 13 c ^^^ gmul 9 d,
     gmul 9 a ^^^ gmul 14 b ^^^ gmul 11 c ^^^ gmul 13 d,
     gmul 13 a ^^^ gmul 9 b ^^^ gmul 14 c ^^^ gmul 11 d,
     gmul 11 a ^^^ gmul 13 b ^^^ gmul 9 c ^^^ gmul 14 d]
  | l => l

def xorBytes (u v : List Nat) : List Nat := List.zipWith (fun a b => a ^^^ b) u v

def subBytes (s : List Nat) : List Nat := s.map sbox

def invSubBytes (s : List Nat) : List Nat := s.map invSbox

def shiftRows : List Nat → List Nat
  | [a0, a1, a2, a3, a4, a5, a6, a7, a8, a9, b0, b1, b2, b3, b4, b5] =>
    [a0, a5, b0, b5, a4, a9, b4, a3, a8, b3, a2, a7, b2, a1, a6, b1]
  | l => l

def invShiftRows : List Nat → List Nat
  | [a0, a1, a2, a3, a4, a5, a6, a7, a8, a9, b0, b1, b2, b3, b4, b5] =>
    [a0, b3, b0, a7, a4, a1, b4, b1, a8, a5, a2, b5, b2, a9, a6, a3]
  | l => l

def mixColumns : List Nat → List Nat
  | a :: b :: c :: d :: rest => mixColL [a, b, c, d] ++ mixColumns rest
  | l => l

def invMixColumns : List Nat → List Nat
  | a :: b :: c :: d :: rest => invMixColL [a, b, c, d] ++ invMixColumns rest
  | l => l

def addRoundKey (rk s : List Nat) : List Nat := xorBytes s rk

def encRounds : List (List Nat) → List Nat → List Nat
  | [], s => s
  | [rk], s => addRoundKey rk (shiftRows (subBytes s))
  | rk :: rks, s => encRounds rks (addRoundKey rk (mixColumns (shiftRows (subBytes s))))

def decRounds : List (List Nat) → List Nat → List Nat
  | [], s => s
  | [rk], s => invSubBytes (invShiftRows (addRoundKey rk s))
  | rk :: rks, s =>
    invSubBytes (invShiftRows (invMixColumns (addRoundKey rk (decRounds rks s))))

def encBlock (rks : List (List Nat)) (s : List Nat) : List Nat :=
  match rks with
  | [] => s
  | rk0 :: rest => encRounds rest (addRoundKey rk0 s)

def decBlock (rks : List (List Nat)) (s : List Nat) : List Nat :=
  match rks with
  | [] => s
  | rk0 :: rest => addRoundKey rk0 (decRounds rest s)

def rotWord : List Nat → List Nat
  | [a, b, c, d] => [b, c, d, a]
  | l => l

def subWord (w : List Nat) : List Nat := w.map sbox

def rconTable : List Nat := [1, 2, 4, 8, 16, 32, 64]

def chunk4 : List Nat → List (List Nat)
  | a :: b :: c :: d :: rest => [a, b, c, d] :: chunk4 rest
  | _ => []

def nextWord (ws : List (List Nat)) : List Nat :=
  let i := ws.length
  let temp := ws.getD (i - 1) []
  let temp2 :=
    if i % 8 = 0 then
      xorBytes (subWord (rotWord temp)) [rconTable.getD (i / 8 - 1) 0, 0, 0, 0]
    else if i % 8 = 4 then subWord temp
    else temp
  xorBytes (ws.getD (i - 8) []) temp2

def expandAux : Nat → List (List Nat) → List (List Nat)
  | 0, ws => ws
  | n + 1, ws => expandAux n (ws ++ [nextWord ws])

def chunk16 : List Nat → List (List Nat)
  | a0 :: a1 :: a2 :: a3 :: a4 :: a5 :: a6 :: a7 :: a8 :: a9 ::
      b0 :: b1 :: b2 :: b3 :: b4 :: b5 :: rest =>
    [a0, a1, a2, a3, a4, a5, a6, a7, a8, a9, b0, b1, b2, b3, b4, b5] :: chunk16 rest
  | _ => []

def keySchedule (key : List Nat) : List (List Nat) :=
  chunk16 (List.flatten (expandAux 52 (chunk4 key)))


def Good16 (s : List Nat) : Prop := s.length = 16 ∧ ∀ x ∈ s, x < 256

def GoodW (w : List Nat) : Prop := w.length = 4 ∧ ∀ x ∈ w, x < 256

def cbcEnc (rks : List (List Nat)) (prev : List Nat) : List (List Nat) → List (List Nat)
  | [] => []
  | blk :: rest =>
    let c := encBlock rks (xorBytes blk prev)
    c :: cbcEnc rks c rest

def cbcDec (rks : List (List Nat)) (prev : List Nat) : List (List Nat) → List (List Nat)
  | [] => []
  | blk :: rest => xorBytes (decBlock rks blk) prev :: cbcDec rks blk rest

def pad16 (data : List Nat) : List Nat :=
  data ++ List.replicate (16 - data.length % 16) (16 - data.length % 16)

def unpad16 (data : List Nat) : Option (List Nat) :=
  let p := data.reverse.headD 0
  if 1 ≤ p ∧ p ≤ 16 ∧ p ≤ data.length ∧
      data.drop (data.length - p) = List.replicate p p
  then some (data.take (data.length - p)) else none

def hexDigitChr (n : Nat) : Char :=
  if n < 10 then Char.ofNat (48 + n) else Char.ofNat (87 + n)

def hexChars : List Char := (List.range 16).map hexDigitChr

def hexDigit (n : Nat) : Char := hexChars.getD n '0'

def hexByte (n : Nat) : List Char := [hexDigit (n / 16), hexDigit (n % 16)]

def hexEncode (l : List Nat) : List Char := (l.map hexByte).flatten

def hexVal (c : Char) : Option Nat := hexChars.indexOf? c

def hexDecode : List Char → Option (List Nat)
  | [] => some []
  | c1 :: c2 :: rest =>
    match hexVal c1, hexVal c2, hexDecode rest with
    | some h, some l, some t => some ((16 * h + l) :: t)
    | _, _, _ => none
  | [_] => none

def splitColonAux : List Char → List Char → List (List Char)
  | [], acc => [acc.reverse]
  | c :: rest, acc =>
    if c = ':' then acc.reverse :: splitColonAux rest []
    else splitColonAux rest (c :: acc)

def splitColon (s : List Char) : List (List Char) := splitColonAux s []

def generateQRData (key iv data : List Nat) : List Char :=
  hexEncode iv ++ ':' ::
    hexEncode ((cbcEnc (keySchedule key) iv (chunk16 (pad16 data))).flatten)

def decryptBytes (key : List Nat) :
    Option (List Nat) → Option (List Nat) → Option (List Nat)
  | some iv, some ct =>
    if iv.length = 16 ∧ ct.length % 16 = 0 then
      unpad16 ((cbcDec (keySchedule key) iv (chunk16 ct)).flatten)
    else none
  | _, _ => none

def decryptParts : List (List Char) → List Nat → Option (List Nat)
  | ivHex :: encHex :: _, key => decryptBytes key (hexDecode ivHex) (hexDecode encHex)
  | _, _ => none

def decryptQRData (key : List Nat) (tok : List Char) : Option (List Nat) :=
  decryptParts (splitColon tok) key

/-! ## Helper lemmas about the state operations -/

theorem find?_map_save {α : Type} {l : List (String × α)} {id : String}
    {b : α} (b' : α)
    (h : (l.find? (fun p => p.1 == id)).map (·.2) = some b) :
    ((l.map (fun p => if p.1 == id then (p.1, b') else p)).find?
      (fun p => p.1 == id)).map (·.2) = some b' := by
  induction l with
  | nil => simp at h
  | cons p rest ih =>
    by_cases hp : p.1 = id
    · have hb : (p.1 == id) = true := beq_iff_eq.mpr hp
      rw [List.map_cons, if_pos hb]
      simp [List.find?, hb]
    · have hb : (p.1 == id) = false := beq_eq_false_iff_ne.mpr hp
      rw [List.find?_cons_of_neg _ (by simp [hb])] at h
      rw [List.map_cons, if_neg (by simp [hb]),
        List.find?_cons_of_neg _ (by simp [hb])]
      exact ih h

theorem lookupBooking_saveBooking {db : DB} {id : String} {b : Booking}
    (b' : Booking) (h : lookupBooking db id = some b) :
    lookupBooking (saveBooking db id b') id = some b' :=
  find?_map_save b' h

theorem lookupActivity_saveActivity {db : DB} {id : String} {a : Activity}
    (a' : Activity) (h : lookupActivity db id = some a) :
    lookupActivity (saveActivity db id a') id = some a' :=
  find?_map_save a' h

theorem lookupActivity_mk_activities (db : DB)
    (bks : List (String × Booking)) (id : String) :
    lookupActivity (DB.mk db.activities bks) id = lookupActivity db id :=
  rfl

theorem updateAt_append {α : Type} (pre : List α) (s : α) (post : List α)
    (f : α → α) : updateAt pre.length f (pre ++ s :: post) =
      pre ++ f s :: post := by
  induction pre with
  | nil => rfl
  | cons x xs ih =>
    simp only [List.cons_append, List.length_cons, updateAt]
    exact congrArg (x :: ·) ih

theorem findWithIdx_spec {p : Slot → Bool} {l : List Slot} {i : Nat}
    {s : Slot} (h : findWithIdx p l = some (i, s)) :
    ∃ pre post, l = pre ++ s :: post ∧ pre.length = i ∧ p s = true := by
  induction l generalizing i with
  | nil => simp [findWithIdx] at h
  | cons x xs ih =>
    by_cases hx : p x
    · simp [findWithIdx, hx] at h
      exact ⟨[], xs, by simp [h.2], by simp [h.1], h.2 ▸ hx⟩
    · simp only [findWithIdx, if_neg hx] at h
      match hfw : findWithIdx p xs with
      | none => rw [hfw] at h; simp at h
      | some (j, t) =>
        rw [hfw] at h
        simp only [Option.map_some', Option.some_inj] at h
        cases h
        obtain ⟨pre, post, hl, hlen, hp⟩ := ih hfw
        exact ⟨x :: pre, post, by simp [hl], by simp [hlen], hp⟩

/-- `createBooking` on a request that reaches the capacity check (all
guards of steps 1–7 pass) and satisfies it, together with the
max-participants check: the slot is decremented and the booking stored. -/
theorem createBooking_created (db : DB) (req : CreateReq) (today : Int)
    (nowY nowM nowD : Nat) (lastNum : Option (List Char)) (newId : String)
    (a : Activity) (bd : Int) (idx : Nat) (ts : Slot)
    (h1 : ¬(req.activityId = "" ∨ req.bookingDate.isNone ∨
      req.slotPresent = false ∨ req.numberOfParticipants = 0 ∨
      req.custPresent = false))
    (h2 : ¬(req.custName = "" ∨ req.custEmail = "" ∨ req.custPhone = "" ∨
      req.custAddress = ""))
    (h3 : ¬(req.slotStart = "" ∨ req.slotEnd = ""))
    (hact : lookupActivity db req.activityId = some a)
    (h4 : ¬(a.status ≠ "Active" ∨ a.isAvailable = false))
    (hbd : req.bookingDate = some bd)
    (h5 : ¬(bd < today))
    (h6 : ¬(bd < a.startDate ∨ a.endDate < bd))
    (h7 : ¬((a.availableDays.contains (weekdayName bd)) = false))
    (hslot : findWithIdx (fun s => s.startTime == req.slotStart &&
      s.endTime == req.slotEnd) a.timeSlots = some (idx, ts))
    (hsp : ¬(ts.availableSpots < req.numberOfParticipants))
    (hmx : ¬(a.maxParticipants < req.numberOfParticipants)) :
    createBooking db req today nowY nowM nowD lastNum newId =
      (CreateRes.created newId,
        DB.mk
          (saveActivity db req.activityId
            (reservedActivity a idx req.numberOfParticipants)).activities
          (db.bookings ++
            [(newId, createdBooking req a bd nowY nowM nowD lastNum)])) := by
  have h1' : ¬(req.activityId = "" ∨ (some bd : Option Int).isNone = true ∨
      req.slotPresent = false ∨ req.numberOfParticipants = 0 ∨
      req.custPresent = false) := by rw [← hbd]; exact h1
  simp only [createBooking, hact, hbd, Option.getD_some, hslot,
    if_neg h1, if_neg h1', if_neg h2, if_neg h3, if_neg h4, if_neg h5,
    if_neg h6, if_neg h7, if_neg hsp, if_neg hmx, reservedActivity,
    createdBooking, pricePerPersonJS, saveActivity]

/-- `createBooking` on a request that reaches the capacity check but
fails it: the insufficient-capacity error reports the requested and the
current remaining count and the state is unchanged. -/
theorem createBooking_insufficient (db : DB) (req : CreateReq)
    (today : Int) (nowY nowM nowD : Nat) (lastNum : Option (List Char))
    (newId : String) (a : Activity) (bd : Int) (idx : Nat) (ts : Slot)
    (h1 : ¬(req.activityId = "" ∨ req.bookingDate.isNone ∨
      req.slotPresent = false ∨ req.numberOfParticipants = 0 ∨
      req.custPresent = false))
    (h2 : ¬(req.custName = "" ∨ req.custEmail = "" ∨ req.custPhone = "" ∨
      req.custAddress = ""))
    (h3 : ¬(req.slotStart = "" ∨ req.slotEnd = ""))
    (hact : lookupActivity db req.activityId = some a)
    (h4 : ¬(a.status ≠ "Active" ∨ a.isAvailable = false))
    (hbd : req.bookingDate = some bd)
    (h5 : ¬(bd < today))
    (h6 : ¬(bd < a.startDate ∨ a.endDate < bd))
    (h7 : ¬((a.availableDays.contains (weekdayName bd)) = false))
    (hslot : findWithIdx (fun s => s.startTime == req.slotStart &&
      s.endTime == req.slotEnd) a.timeSlots = some (idx, ts))
    (hlow : ts.availableSpots < req.numberOfParticipants) :
    createBooking db req today nowY nowM nowD lastNum newId =
      (CreateRes.notEnoughSpots req.numberOfParticipants
        ts.availableSpots, db) := by
  have h1' : ¬(req.activityId = "" ∨ (some bd : Option Int).isNone = true ∨
      req.slotPresent = false ∨ req.numberOfParticipants = 0 ∨
      req.custPresent = false) := by rw [← hbd]; exact h1
  simp only [createBooking, hact, hbd, Option.getD_some, hslot,
    if_neg h1, if_neg h1', if_neg h2, if_neg h3, if_neg h4, if_neg h5,
    if_neg h6, if_neg h7, if_pos hlow]

/-! ## C1 — capacity reservation is a conditional decrement -/

/-- C1 (amended): for every booking-creation request that reaches the
capacity check (the requested slot exists and the earlier guards pass)
and whose participant count does not exceed the activity's
max-per-booking, the reservation is a conditional decrement: if the
slot's `availableSpots` is at least the requested count, it is decreased
by exactly that count (all other slots unchanged) and the booking is
created; otherwise the request fails with the insufficient-capacity
error reporting the current remaining count and the state is unchanged. -/
theorem c1_conditional_decrement (db : DB) (req : CreateReq) (today : Int)
    (nowY nowM nowD : Nat) (lastNum : Option (List Char)) (newId : String)
    (a : Activity) (bd : Int) (idx : Nat) (ts : Slot)
    (h1 : ¬(req.activityId = "" ∨ req.bookingDate.isNone ∨
      req.slotPresent = false ∨ req.numberOfParticipants = 0 ∨
      req.custPresent = false))
    (h2 : ¬(req.custName = "" ∨ req.custEmail = "" ∨ req.custPhone = "" ∨
      req.custAddress = ""))
    (h3 : ¬(req.slotStart = "" ∨ req.slotEnd = ""))
    (hact : lookupActivity db req.activityId = some a)
    (h4 : ¬(a.status ≠ "Active" ∨ a.isAvailable = false))
    (hbd : req.bookingDate = some bd)
    (h5 : ¬(bd < today))
    (h6 : ¬(bd < a.startDate ∨ a.endDate < bd))
    (h7 : ¬((a.availableDays.contains (weekdayName bd)) = false))
    (hslot : findWithIdx (fun s => s.startTime == req.slotStart &&
      s.endTime == req.slotEnd) a.timeSlots = some (idx, ts))
    (hmx : ¬(a.maxParticipants < req.numberOfParticipants)) :
    (¬(ts.availableSpots < req.numberOfParticipants) →
      (createBooking db req today nowY nowM nowD lastNum newId).1 =
        CreateRes.created newId ∧
      ∃ pre post, a.timeSlots = pre ++ ts :: post ∧
        lookupActivity
            (createBooking db req today nowY nowM nowD lastNum newId).2
            req.activityId =
          some { a with timeSlots :=
            pre ++ { ts with availableSpots := ts.availableSpots - req.numberOfParticipants } :: post }) ∧
    (ts.availableSpots < req.numberOfParticipants →
      createBooking db req today nowY nowM nowD lastNum newId =
        (CreateRes.notEnoughSpots req.numberOfParticipants
          ts.availableSpots, db)) := by
  constructor
  · intro hsp
    have hc := createBooking_created db req today nowY nowM nowD lastNum
      newId a bd idx ts h1 h2 h3 hact h4 hbd h5 h6 h7 hslot hsp hmx
    refine ⟨by rw [hc], ?_⟩
    obtain ⟨pre, post, hl, hlen, hpred⟩ := findWithIdx_spec hslot
    refine ⟨pre, post, hl, ?_⟩
    rw [hc]
    have hres : reservedActivity a idx req.numberOfParticipants =
        { a with timeSlots :=
          pre ++ { ts with availableSpots := ts.availableSpots - req.numberOfParticipants } :: post } := by
      simp only [reservedActivity]
      rw [hl, ← hlen, updateAt_append]
    have hlook := lookupActivity_saveActivity
      (reservedActivity a idx req.numberOfParticipants) hact
    rw [← hres, lookupActivity_mk_activities]
    exact hlook
  · intro hlow
    exact createBooking_insufficient db req today nowY nowM nowD lastNum
      newId a bd idx ts h1 h2 h3 hact h4 hbd h5 h6 h7 hslot hlow

/-- C1 witness: in the concrete scenario a request for 3 of 5 spots is
created and the slot drops to 2. -/
theorem c1_witness :
    (createBooking exDB (exReq 3) 20000 2025 9 12 none "b1").1 =
        CreateRes.created "b1" ∧
      lookupActivity
          (createBooking exDB (exReq 3) 20000 2025 9 12 none "b1").2
          "a1" =
        some { exAct with timeSlots :=
          [{ exSlot with availableSpots := 2 }] } := by
  have h := (c1_conditional_decrement exDB (exReq 3) 20000 2025 9 12 none
    "b1" exAct 20500 0 exSlot (by decide) (by decide) (by decide)
    (by decide) (by decide) (by decide) (by decide) (by decide)
    (by decide) (by decide) (by decide)).1 (by decide)
  exact ⟨h.1, by decide⟩

/-- C1 counterexample: the claim as stated fails when the slot has
enough spots but the participant count exceeds `maxParticipants`
(5 requested, 5 available, max 4): the booking does not proceed and no
decrement happens. -/
theorem c1_counterexample :
    findWithIdx (fun s => s.startTime == (exReq 5).slotStart &&
        s.endTime == (exReq 5).slotEnd) exAct.timeSlots =
      some (0, exSlot) ∧
    ¬(exSlot.availableSpots < (exReq 5).numberOfParticipants) ∧
    (createBooking exDB (exReq 5) 20000 2025 9 12 none "b1").1 =
      CreateRes.tooManyParticipants 4 ∧
    (createBooking exDB (exReq 5) 20000 2025 9 12 none "b1").2 = exDB := by
  refine ⟨by decide, by decide, ?_, ?_⟩ <;> decide

/-- C8 (amended): every created booking stores
`pricePerPerson = priceAfterDiscount` when that is present and nonzero
and `basePrice` otherwise (a present but zero discounted price falls
back to the base price, per JS `||`), `total = pricePerPerson * n`,
`discount = (basePrice - pricePerPerson) * n`, and `final = total`. -/
theorem c8_pricing_pure_function (db : DB) (req : CreateReq) (today : Int)
    (nowY nowM nowD : Nat) (lastNum : Option (List Char)) (newId : String)
    (a : Activity) (bd : Int) (idx : Nat) (ts : Slot)
    (h1 : ¬(req.activityId = "" ∨ req.bookingDate.isNone ∨
      req.slotPresent = false ∨ req.numberOfParticipants = 0 ∨
      req.custPresent = false))
    (h2 : ¬(req.custName = "" ∨ req.custEmail = "" ∨ req.custPhone = "" ∨
      req.custAddress = ""))
    (h3 : ¬(req.slotStart = "" ∨ req.slotEnd = ""))
    (hact : lookupActivity db req.activityId = some a)
    (h4 : ¬(a.status ≠ "Active" ∨ a.isAvailable = false))
    (hbd : req.bookingDate = some bd)
    (h5 : ¬(bd < today))
    (h6 : ¬(bd < a.startDate ∨ a.endDate < bd))
    (h7 : ¬((a.availableDays.contains (weekdayName bd)) = false))
    (hslot : findWithIdx (fun s => s.startTime == req.slotStart &&
      s.endTime == req.slotEnd) a.timeSlots = some (idx, ts))
    (hsp : ¬(ts.availableSpots < req.numberOfParticipants))
    (hmx : ¬(a.maxParticipants < req.numberOfParticipants)) :
    ((createBooking db req today nowY nowM nowD lastNum
        newId).2.bookings.getLast?).map
        (fun p => (p.2.pricePerPerson, p.2.totalAmount, p.2.discountAmount,
          p.2.finalAmount)) =
      some (pricePerPersonJS a,
        pricePerPersonJS a * req.numberOfParticipants,
        (a.price - pricePerPersonJS a) * req.numberOfParticipants,
        pricePerPersonJS a * req.numberOfParticipants) := by
  rw [createBooking_created db req today nowY nowM nowD lastNum newId a bd
    idx ts h1 h2 h3 hact h4 hbd h5 h6 h7 hslot hsp hmx]
  rw [show (CreateRes.created newId,
      DB.mk (saveActivity db req.activityId
        (reservedActivity a idx req.numberOfParticipants)).activities
      (db.bookings ++
        [(newId, createdBooking req a bd nowY nowM nowD lastNum)])).2.bookings
    = db.bookings ++
        [(newId, createdBooking req a bd nowY nowM nowD lastNum)] from rfl]
  rw [List.getLast?_concat]
  rfl

/-- C8 witness: in the concrete scenario (base 100, discounted 80,
3 participants) the stored pricing is (80, 240, 60, 240). -/
theorem c8_witness :
    ((createBooking exDB (exReq 3) 20000 2025 9 12 none
        "b1").2.bookings.getLast?).map
        (fun p => (p.2.pricePerPerson, p.2.totalAmount, p.2.discountAmount,
          p.2.finalAmount)) =
      some (80, 240, 60, 240) := by
  have h := c8_pricing_pure_function exDB (exReq 3) 20000 2025 9 12 none
    "b1" exAct 20500 0 exSlot (by decide) (by decide) (by decide)
    (by decide) (by decide) (by decide) (by decide) (by decide)
    (by decide) (by decide) (by decide) (by decide)
  rw [h]
  decide

/-- C8 counterexample: with basePrice 100 and a present discounted price
of 0, the spec formula gives `pricePerPerson = 0`, but the code's JS
`||` falls back to the base price: the stored pricing for 2 participants
is (100, 200, 0, 200), not (0, 0, 200, 0). -/
theorem c8_counterexample :
    ((createBooking exDBZero (exReq 2) 20000 2025 9 12 none
        "b1").2.bookings.getLast?).map
        (fun p => (p.2.pricePerPerson, p.2.totalAmount, p.2.discountAmount,
          p.2.finalAmount)) =
      some (100, 200, 0, 200) ∧
    specPricePerPerson exActZero.price exActZero.priceAfterDiscount = 0 ∧
    specPricePerPerson exActZero.price exActZero.priceAfterDiscount *
        (exReq 2).numberOfParticipants = 0 ∧
    (100 : Int) ≠ 0 ∧ (200 : Int) ≠ 0 := by
  refine ⟨by decide, by decide, by decide, by decide, by decide⟩

/-! ## C10 — a payment order only for Initiated/Pending bookings -/

/-- C10: `createPaymentOrder` succeeds exactly on bookings in
`bookingStatus = Initiated` and `paymentStatus = Pending` (attaching the
gateway order id); in any other state it returns an error and the
stored booking is unchanged. -/
theorem c10_order_only_initiated_pending (db : DB)
    (bookingId orderId : String) (b : Booking)
    (hid : bookingId ≠ "")
    (hb : lookupBooking db bookingId = some b) :
    (b.bookingStatus = BookingStatus.Initiated →
      b.paymentStatus = PaymentStatus.Pending →
      createPaymentOrder db bookingId orderId =
        (OrderRes.orderCreated orderId (b.finalAmount * 100),
          saveBooking db bookingId
            { b with razorpayOrderId := some orderId })) ∧
    (b.bookingStatus ≠ BookingStatus.Initiated →
      createPaymentOrder db bookingId orderId =
        (OrderRes.cannotPay b.bookingStatus, db)) ∧
    (b.bookingStatus = BookingStatus.Initiated →
      b.paymentStatus ≠ PaymentStatus.Pending →
      createPaymentOrder db bookingId orderId =
        (OrderRes.alreadyProcessed b.paymentStatus, db)) := by
  refine ⟨?_, ?_, ?_⟩
  · intro hbs hps
    simp [createPaymentOrder, hid, hb, hbs, hps]
  · intro hbs
    simp [createPaymentOrder, hid, hb, hbs]
  · intro hbs hps
    simp [createPaymentOrder, hid, hb, hbs, hps]

/-- C10 witness: ordering payment for the freshly created (Initiated /
Pending) booking succeeds and stores the Razorpay order id on the booking,
instantiating the positive branch of the C10 theorem. -/
theorem c10_witness :
    createPaymentOrder exDB1 "b1" "o1" =
      (OrderRes.orderCreated "o1" (exBooking.finalAmount * 100),
        saveBooking exDB1 "b1"
          { exBooking with razorpayOrderId := some "o1" }) := by
  exact (c10_order_only_initiated_pending exDB1 "b1" "o1" exBooking
    (by decide) (by decide)).1 (by decide) (by decide)

/-! ## C7 — signature mismatch marks payment Failed, nothing else -/

/-- C7: when the supplied signature differs from the HMAC of
`orderId|paymentId` under the shared secret, `verifyPayment` stores
`paymentStatus = Failed` and returns the signature-invalid error, while
`bookingStatus` is untouched (the booking is not cancelled) and the
activities (slot capacity) are untouched, and no credential is issued. -/
theorem c7_sig_mismatch_marks_failed (hmac : String → String → String)
    (keySecret : String) (db : DB)
    (orderId paymentId sig bookingId : String) (method : Option String)
    (now : Int) (qrTok : String) (b : Booking)
    (ho : orderId ≠ "") (hp : paymentId ≠ "") (hs : sig ≠ "")
    (hbid : bookingId ≠ "")
    (hb : lookupBooking db bookingId = some b)
    (hmis : hmac keySecret (orderId ++ "|" ++ paymentId) ≠ sig) :
    verifyPayment hmac keySecret db orderId paymentId sig bookingId
        method now qrTok =
      (VerifyRes.signatureInvalid,
        saveBooking db bookingId
          { b with paymentStatus := PaymentStatus.Failed }, false) ∧
    (saveBooking db bookingId
        { b with paymentStatus := PaymentStatus.Failed }).activities =
      db.activities ∧
    lookupBooking
        (saveBooking db bookingId
          { b with paymentStatus := PaymentStatus.Failed }) bookingId =
      some { b with paymentStatus := PaymentStatus.Failed } ∧
    ({ b with paymentStatus := PaymentStatus.Failed }).bookingStatus =
      b.bookingStatus := by
  refine ⟨?_, rfl, lookupBooking_saveBooking _ hb, rfl⟩
  simp [verifyPayment, ho, hp, hs, hbid, hb, hmis]

/-- C7 witness: a wrong signature on the concrete pending booking yields
the signature-invalid error, a `Failed` payment state, an unchanged
`Initiated` booking state, and unchanged activities. -/
theorem c7_witness :
    verifyPayment exHmac "ks" exDB1 "o1" "p1" "bad" "b1" none 7 "tok" =
      (VerifyRes.signatureInvalid,
        saveBooking exDB1 "b1"
          { exBooking with paymentStatus := PaymentStatus.Failed },
        false) ∧
    (saveBooking exDB1 "b1"
        { exBooking with paymentStatus := PaymentStatus.Failed }).activities =
      exDB1.activities := by
  have h := c7_sig_mismatch_marks_failed exHmac "ks" exDB1 "o1" "p1" "bad"
    "b1" none 7 "tok" exBooking (by decide) (by decide) (by decide)
    (by decide) (by decide) (by decide)
  exact ⟨h.1, h.2.1⟩

/-! ## C3 — idempotency of the two payment-confirmation entry points -/

/-- C3 (amended): the server webhook is idempotent — for a booking whose
`paymentStatus` is already `Completed`, a redelivered
`payment.captured` event returns 200 with the state unchanged and no
second credential issuance.  (The client callback `verifyPayment` is
not idempotent; see the counterexample.) -/
theorem c3_webhook_idempotent (hmac : String → String → String)
    (sec : String) (db : DB) (headerSig rawBody : String)
    (orderId paymentId : String) (method : Option String) (now : Int)
    (qrTok : String) (bid : String) (b : Booking)
    (hsig : hmac sec rawBody = headerSig)
    (hfind : findBookingByOrder db orderId = some (bid, b))
    (hdone : b.paymentStatus = PaymentStatus.Completed) :
    paymentWebhook hmac (some sec) db headerSig rawBody
        "payment.captured" orderId paymentId method now qrTok =
      (200, db, false) := by
  simp [paymentWebhook, hsig, hfind, hdone]

/-- C3 witness: a redelivered `payment.captured` for the already
completed concrete booking answers 200, changes nothing and issues no
credential. -/
theorem c3_witness :
    paymentWebhook exHmac (some "ws") exDB3 "ws#raw" "raw"
        "payment.captured" "o1" "p2" none 9 "tok3" =
      (200, exDB3, false) :=
  c3_webhook_idempotent exHmac "ws" exDB3 "ws#raw" "raw" "o1" "p2" none 9
    "tok3" "b1" exBookingPaid (by decide) (by decide) (by decide)

/-- C3 counterexample: `verifyPayment` is not idempotent.  The concrete
booking is already `Completed` with `paidAt = 5` and credential
`"tok1"`; a second client callback with a valid signature succeeds but
reapplies the side effects: it overwrites `paidAt` with the new time 9,
replaces the credential with the fresh `"tok2"`, and invokes
`generateAndSendQR` again. -/
theorem c3_counterexample :
    (lookupBooking exDB3 "b1").map
        (fun b => (b.paymentStatus, b.paidAt, b.qrData)) =
      some (PaymentStatus.Completed, some 5, some "tok1") ∧
    (verifyPayment exHmac "ks" exDB3 "o1" "p1" "ks#o1|p1" "b1"
        (some "UPI") 9 "tok2").2.2 = true ∧
    (lookupBooking
          (verifyPayment exHmac "ks" exDB3 "o1" "p1" "ks#o1|p1" "b1"
            (some "UPI") 9 "tok2").2.1 "b1").map
        (fun b => (b.paidAt, b.qrData)) =
      some (some 9, some "tok2") := by
  refine ⟨by decide, by decide, by decide⟩

/-! ## C5 — webhook status after a valid signature -/

/-- C5 (amended): once the webhook signature verifies, the response is
200 — including for already-processed events and for `payment.failed`
events matching no booking — except that a `payment.captured` event
whose order id matches no booking is answered 404. -/
theorem c5_webhook_status (hmac : String → String → String) (sec : String)
    (db : DB) (headerSig rawBody event orderId paymentId : String)
    (method : Option String) (now : Int) (qrTok : String)
    (hsig : hmac sec rawBody = headerSig) :
    (paymentWebhook hmac (some sec) db headerSig rawBody event orderId
        paymentId method now qrTok).1 = 200 ∨
    (event = "payment.captured" ∧ findBookingByOrder db orderId = none ∧
      (paymentWebhook hmac (some sec) db headerSig rawBody event orderId
        paymentId method now qrTok).1 = 404) := by
  have hne : ¬(hmac sec rawBody ≠ headerSig) := by simp [hsig]
  simp only [paymentWebhook, if_neg hne]
  by_cases he : event = "payment.captured"
  · rw [if_pos he]
    cases hf : findBookingByOrder db orderId with
    | none => exact Or.inr ⟨he, rfl, by simp⟩
    | some p =>
      obtain ⟨bid, b⟩ := p
      left
      by_cases hps : b.paymentStatus = PaymentStatus.Completed <;>
        simp [hps]
  · rw [if_neg he]
    left
    by_cases hev : event = "payment.failed"
    · rw [if_pos hev]
      cases hf : findBookingByOrder db orderId with
      | none => rfl
      | some p =>
        obtain ⟨bid, b⟩ := p
        by_cases hps : b.paymentStatus = PaymentStatus.Pending
        · simp only [if_pos hps]
          (repeat' split) <;> rfl
        · simp [hps]
    · rw [if_neg hev]

/-- C5 witness: a signed `payment.failed` event with an unknown order id
is a 200 no-op. -/
theorem c5_witness :
    (paymentWebhook exHmac (some "ws") exDB2 "ws#raw" "raw"
        "payment.failed" "oX" "p9" none 3 "t").1 = 200 := by
  have h := c5_webhook_status exHmac "ws" exDB2 "ws#raw" "raw"
    "payment.failed" "oX" "p9" none 3 "t" (by decide)
  rcases h with h | ⟨he, _, _⟩
  · exact h
  · exact absurd he (by decide)

/-- C5 counterexample: a signed `payment.captured` event whose order id
matches no booking is answered 404, not 200. -/
theorem c5_counterexample :
    paymentWebhook exHmac (some "ws") exDB2 "ws#raw" "raw"
        "payment.captured" "oX" "p9" none 3 "t" = (404, exDB2, false) ∧
    (404 : Nat) ≠ 200 := by
  refine ⟨by decide, by decide⟩

/-- C4 (amended): the first scan succeeds, sets `checkedIn` and stamps
the check-in time, and moves `bookingStatus` to `Completed`; the second
scan of the same credential fails without touching the booking — but
with the not-confirmed (wrong state) error carrying status `Completed`,
because the status check precedes the checked-in check; the
AlreadyRedeemed branch is not reached. -/
theorem c4_second_scan (db : DB) (bid : String) (today now1 now2 : Int)
    (op1 op2 : String) (b : Booking)
    (hb : lookupBooking db bid = some b)
    (h1 : b.bookingStatus = BookingStatus.Confirmed)
    (h2 : b.paymentStatus = PaymentStatus.Completed)
    (h3 : b.checkedIn = false)
    (h4 : b.bookingDate = today) :
    scanQR db bid today now1 op1 =
      (ScanRes.checkInOk b.bookingNumber now1,
        saveBooking db bid (checkedInBooking b now1 op1)) ∧
    scanQR (saveBooking db bid (checkedInBooking b now1 op1)) bid today
        now2 op2 =
      (ScanRes.notConfirmed BookingStatus.Completed,
        saveBooking db bid (checkedInBooking b now1 op1)) := by
  constructor
  · simp [scanQR, hb, h1, h2, h3, h4, checkedInBooking]
  · have hb2 := lookupBooking_saveBooking (checkedInBooking b now1 op1) hb
    simp only [checkedInBooking] at hb2
    simp [scanQR, hb2, checkedInBooking]

/-- C4 witness: in the concrete scenario the first scan checks in at
time 50 and the second scan returns the wrong-state error. -/
theorem c4_witness :
    (scanQR exDB3 "b1" 20500 50 "g1").1 =
        ScanRes.checkInOk exBookingPaid.bookingNumber 50 ∧
    (scanQR (saveBooking exDB3 "b1" (checkedInBooking exBookingPaid 50
        "g1")) "b1" 20500 60 "g2").1 =
      ScanRes.notConfirmed BookingStatus.Completed := by
  have h := c4_second_scan exDB3 "b1" 20500 50 60 "g1" "g2" exBookingPaid
    (by decide) (by decide) (by decide) (by decide) (by decide)
  exact ⟨by rw [h.1], by rw [h.2]⟩

/-- C4 counterexample: the claim as stated fails — the second scan does
not return the AlreadyRedeemed error with the original check-in time;
it returns the not-confirmed error (status `Completed`), though the
check-in fields are indeed unchanged. -/
theorem c4_counterexample :
    (scanQR (scanQR exDB3 "b1" 20500 50 "g1").2 "b1" 20500 60 "g2").1 =
      ScanRes.notConfirmed BookingStatus.Completed ∧
    (scanQR (scanQR exDB3 "b1" 20500 50 "g1").2 "b1" 20500 60 "g2").1 ≠
      ScanRes.alreadyCheckedIn (some 50) (some "g1") ∧
    (scanQR (scanQR exDB3 "b1" 20500 50 "g1").2 "b1" 20500 60 "g2").2 =
      (scanQR exDB3 "b1" 20500 50 "g1").2 ∧
    (lookupBooking (scanQR exDB3 "b1" 20500 50 "g1").2 "b1").map
        (fun b => (b.checkedIn, b.checkInTime)) =
      some (true, some 50) := by
  refine ⟨by decide, by decide, by decide, by decide⟩

theorem lookupActivity_mem {db : DB} {id : String} {a : Activity}
    (h : lookupActivity db id = some a) : ∃ p ∈ db.activities, p.2 = a := by
  match hf : db.activities.find? (fun p => p.1 == id) with
  | none => rw [lookupActivity, hf] at h; simp at h
  | some p =>
    rw [lookupActivity, hf] at h
    simp only [Option.map_some', Option.some_inj] at h
    exact ⟨p, List.mem_of_find?_eq_some hf, h⟩

theorem lookupBooking_mem {db : DB} {id : String} {b : Booking}
    (h : lookupBooking db id = some b) : ∃ p ∈ db.bookings, p.2 = b := by
  match hf : db.bookings.find? (fun p => p.1 == id) with
  | none => rw [lookupBooking, hf] at h; simp at h
  | some p =>
    rw [lookupBooking, hf] at h
    simp only [Option.map_some', Option.some_inj] at h
    exact ⟨p, List.mem_of_find?_eq_some hf, h⟩

theorem slotsNonneg_saveActivity {db : DB} {id : String} {a' : Activity}
    (h : slotsNonneg db.activities)
    (ha : ∀ s ∈ a'.timeSlots, 0 ≤ s.availableSpots) :
    slotsNonneg (saveActivity db id a').activities := by
  intro p hp s hs
  simp only [saveActivity, List.mem_map] at hp
  obtain ⟨q, hq, hpq⟩ := hp
  by_cases hqi : (q.1 == id) = true
  · rw [if_pos hqi] at hpq
    rw [← hpq] at hs
    exact ha s hs
  · rw [if_neg hqi] at hpq
    rw [← hpq] at hs
    exact h q hq s hs

/-- The reservation decrement keeps all spots nonnegative when the
guard `availableSpots ≥ n` held for the decremented slot. -/
theorem slotsNonneg_created (db : DB) (aid : String) (n : Int)
    (a : Activity) (idx : Nat) (ts : Slot) {q : Slot → Bool}
    (hnn : slotsNonneg db.activities)
    (hact : lookupActivity db aid = some a)
    (hfw : findWithIdx q a.timeSlots = some (idx, ts))
    (hsp : ¬(ts.availableSpots < n)) :
    slotsNonneg (saveActivity db aid (reservedActivity a idx n)).activities := by
  obtain ⟨pa, hpa, hpa2⟩ := lookupActivity_mem hact
  obtain ⟨pre, post, hl, hlen, _⟩ := findWithIdx_spec hfw
  apply slotsNonneg_saveActivity hnn
  intro s hs
  simp only [reservedActivity] at hs
  rw [hl, ← hlen, updateAt_append] at hs
  have hmem : ∀ t, t ∈ pre ++ ts :: post → 0 ≤ t.availableSpots := by
    intro t ht
    exact hnn pa hpa t (by rw [hpa2, hl]; exact ht)
  rcases List.mem_append.mp hs with hss | hss
  · exact hmem s (List.mem_append.mpr (Or.inl hss))
  · rcases List.mem_cons.mp hss with rfl | hss
    · simpa using Int.sub_nonneg.mpr (Int.not_lt.mp hsp)
    · exact hmem s (by simp [hss])

/-- A release addition keeps all spots nonnegative when the added
participant count is nonnegative. -/
theorem slotsNonneg_released (db : DB) (aid : String) (n : Int)
    (a : Activity) (idx : Nat) {q : Slot → Bool} (ts : Slot)
    (hnn : slotsNonneg db.activities)
    (hact : lookupActivity db aid = some a)
    (hfw : findWithIdx q a.timeSlots = some (idx, ts))
    (hn : 0 ≤ n) :
    slotsNonneg (saveActivity db aid (releasedActivity a idx n)).activities := by
  obtain ⟨pa, hpa, hpa2⟩ := lookupActivity_mem hact
  obtain ⟨pre, post, hl, hlen, _⟩ := findWithIdx_spec hfw
  apply slotsNonneg_saveActivity hnn
  intro s hs
  simp only [releasedActivity] at hs
  rw [hl, ← hlen, updateAt_append] at hs
  have hmem : ∀ t, t ∈ pre ++ ts :: post → 0 ≤ t.availableSpots := by
    intro t ht
    exact hnn pa hpa t (by rw [hpa2, hl]; exact ht)
  rcases List.mem_append.mp hs with hss | hss
  · exact hmem s (List.mem_append.mpr (Or.inl hss))
  · rcases List.mem_cons.mp hss with rfl | hss
    · have := hmem ts (by simp)
      simpa using Int.add_nonneg this hn
    · exact hmem s (by simp [hss])

theorem createBooking_spots_nonneg (db : DB) (req : CreateReq)
    (today : Int) (nowY nowM nowD : Nat) (lastNum : Option (List Char))
    (newId : String) (hnn : slotsNonneg db.activities) :
    slotsNonneg (createBooking db req today nowY nowM nowD lastNum
      newId).2.activities := by
  unfold createBooking
  by_cases h1 : (req.activityId = "" ∨ req.bookingDate.isNone = true ∨
    req.slotPresent = false ∨ req.numberOfParticipants = 0 ∨
    req.custPresent = false)
  · rw [if_pos h1]; exact hnn
  rw [if_neg h1]
  by_cases h2 : (req.custName = "" ∨ req.custEmail = "" ∨
    req.custPhone = "" ∨ req.custAddress = "")
  · rw [if_pos h2]; exact hnn
  rw [if_neg h2]
  by_cases h3 : (req.slotStart = "" ∨ req.slotEnd = "")
  · rw [if_pos h3]; exact hnn
  rw [if_neg h3]
  cases hact : lookupActivity db req.activityId with
  | none => exact hnn
  | some a =>
    dsimp only
    by_cases h4 : (a.status ≠ "Active" ∨ a.isAvailable = false)
    · rw [if_pos h4]; exact hnn
    rw [if_neg h4]
    by_cases h5 : (req.bookingDate.getD 0 < today)
    · rw [if_pos h5]; exact hnn
    rw [if_neg h5]
    by_cases h6 : (req.bookingDate.getD 0 < a.startDate ∨
      a.endDate < req.bookingDate.getD 0)
    · rw [if_pos h6]; exact hnn
    rw [if_neg h6]
    by_cases h7 : (a.availableDays.contains
      (weekdayName (req.bookingDate.getD 0)) = false)
    · rw [if_pos h7]; exact hnn
    rw [if_neg h7]
    cases hfw : findWithIdx (fun s => s.startTime == req.slotStart &&
        s.endTime == req.slotEnd) a.timeSlots with
    | none => exact hnn
    | some idxts =>
      obtain ⟨idx, ts⟩ := idxts
      dsimp only
      by_cases h8 : (ts.availableSpots < req.numberOfParticipants)
      · rw [if_pos h8]; exact hnn
      rw [if_neg h8]
      by_cases h9 : (a.maxParticipants < req.numberOfParticipants)
      · rw [if_pos h9]; exact hnn
      rw [if_neg h9]
      exact slotsNonneg_created db req.activityId
        req.numberOfParticipants a idx ts hnn hact hfw h8

theorem paymentWebhook_spots_nonneg (hmac : String → String → String)
    (wsec : Option String) (db : DB) (headerSig rawBody : String)
    (event orderId paymentId : String) (method : Option String)
    (now : Int) (qrTok : String)
    (hnn : slotsNonneg db.activities) (hpn : partsNonneg db.bookings) :
    slotsNonneg (paymentWebhook hmac wsec db headerSig rawBody event
      orderId paymentId method now qrTok).2.1.activities := by
  unfold paymentWebhook
  cases wsec with
  | none => exact hnn
  | some sec =>
    dsimp only
    by_cases hs : (hmac sec rawBody ≠ headerSig)
    · rw [if_pos hs]; exact hnn
    rw [if_neg hs]
    by_cases he : event = "payment.captured"
    · rw [if_pos he]
      cases hf : findBookingByOrder db orderId with
      | none => exact hnn
      | some p =>
        obtain ⟨bid, b⟩ := p
        dsimp only
        by_cases hc : b.paymentStatus = PaymentStatus.Completed
        · rw [if_pos hc]; exact hnn
        · rw [if_neg hc]; exact hnn
    rw [if_neg he]
    by_cases hev : event = "payment.failed"
    · rw [if_pos hev]
      cases hf : findBookingByOrder db orderId with
      | none => exact hnn
      | some p =>
        obtain ⟨bid, b⟩ := p
        dsimp only
        by_cases hp : b.paymentStatus = PaymentStatus.Pending
        · rw [if_pos hp]
          cases hla : lookupActivity (saveBooking db bid
              { b with paymentStatus := PaymentStatus.Failed })
              b.activity with
          | none => exact hnn
          | some a =>
            dsimp only
            cases hfw : findWithIdx (fun s =>
                s.startTime == b.slotStart &&
                s.endTime == b.slotEnd) a.timeSlots with
            | none => exact hnn
            | some q =>
              obtain ⟨idx, ts⟩ := q
              dsimp only
              have hbn : 0 ≤ b.numberOfParticipants := by
                have hmem := List.mem_of_find?_eq_some hf
                exact hpn (bid, b) hmem
              exact slotsNonneg_released
                (saveBooking db bid
                  { b with paymentStatus := PaymentStatus.Failed })
                b.activity b.numberOfParticipants a idx ts hnn hla hfw
                hbn
        · rw [if_neg hp]; exact hnn
    rw [if_neg hev]
    exact hnn

theorem cancelBooking_spots_nonneg (db : DB) (bid reason uid : String)
    (now : Int)
    (hnn : slotsNonneg db.activities) (hpn : partsNonneg db.bookings) :
    slotsNonneg (cancelBooking db bid reason uid now).2.activities := by
  unfold cancelBooking
  cases hb : lookupBooking db bid with
  | none => exact hnn
  | some b =>
    dsimp only
    by_cases hc : b.paymentStatus = PaymentStatus.Completed
    · rw [if_pos hc]; exact hnn
    rw [if_neg hc]
    dsimp only
    cases hla : lookupActivity db b.activity with
    | none => exact hnn
    | some a =>
      dsimp only
      cases hfw : findWithIdx (fun s => s.startTime == b.slotStart &&
          s.endTime == b.slotEnd) a.timeSlots with
      | none => exact hnn
      | some q =>
        obtain ⟨idx, ts⟩ := q
        dsimp only
        have hbn : 0 ≤ b.numberOfParticipants := by
          obtain ⟨p, hpmem, hp2⟩ := lookupBooking_mem hb
          exact hp2 ▸ hpn p hpmem
        exact slotsNonneg_released db b.activity b.numberOfParticipants
          a idx ts hnn hla hfw hbn

/-- C2 (amended): the lower bound `0 ≤ availableSpots` is an invariant
of all three capacity mutators — booking creation (a guarded
decrement), the payment-failure release, and the admin-cancel release —
given that stored participant counts are nonnegative.  The upper bound
of the original claim does not hold: releases are unclamped additions
(see the counterexample). -/
theorem c2_spots_nonneg_invariant (db : DB) (req : CreateReq)
    (today : Int) (nowY nowM nowD : Nat) (lastNum : Option (List Char))
    (newId : String) (hmac : String → String → String)
    (wsec : Option String) (headerSig rawBody event orderId
      paymentId : String) (method : Option String) (now : Int)
    (qrTok : String) (bid reason uid : String) (now2 : Int)
    (hnn : slotsNonneg db.activities) (hpn : partsNonneg db.bookings) :
    slotsNonneg (createBooking db req today nowY nowM nowD lastNum
      newId).2.activities ∧
    slotsNonneg (paymentWebhook hmac wsec db headerSig rawBody event
      orderId paymentId method now qrTok).2.1.activities ∧
    slotsNonneg (cancelBooking db bid reason uid now2).2.activities :=
  ⟨createBooking_spots_nonneg db req today nowY nowM nowD lastNum newId
      hnn,
    paymentWebhook_spots_nonneg hmac wsec db headerSig rawBody event
      orderId paymentId method now qrTok hnn hpn,
    cancelBooking_spots_nonneg db bid reason uid now2 hnn hpn⟩

/-- C2 witness: the invariant holds across the full concrete trace
state (after creation), for arbitrary follow-up operations on it. -/
theorem c2_witness :
    slotsNonneg (createBooking exDB (exReq 3) 20000 2025 9 12 none
      "b1").2.activities ∧
    slotsNonneg (paymentWebhook exHmac (some "ws") exDB "ws#r" "r"
      "payment.captured" "o9" "p9" none 1 "t").2.1.activities ∧
    slotsNonneg (cancelBooking exDB "bX" "" "admin" 2).2.activities := by
  have hnn : slotsNonneg exDB.activities := by
    intro p hp s hs
    rw [show exDB.activities = [("a1", exAct)] from rfl,
      List.mem_singleton] at hp
    subst hp
    rw [show exAct.timeSlots = [exSlot] from rfl,
      List.mem_singleton] at hs
    subst hs
    decide
  have hpn : partsNonneg exDB.bookings := by
    intro p hp
    simp [exDB] at hp
  exact c2_spots_nonneg_invariant exDB (exReq 3) 20000 2025 9 12 none
    "b1" exHmac (some "ws") "ws#r" "r" "payment.captured" "o9" "p9" none
    1 "t" "bX" "" "admin" 2 hnn hpn

/-- C2 counterexample: the upper bound is violated by a double release.
Trace: create a booking for 3 of 5 spots (5 → 2), attach payment order
`"o1"`, deliver a signed `payment.failed` webhook (release: 2 → 5),
then admin-cancel the same booking (payment is `Failed`, not
`Completed`, so the cancel is allowed and releases again: 5 → 8).  The
slot ends with 8 spots although its original total was 5. -/
theorem c2_counterexample :
    (lookupActivity exDB "a1").map
        (fun a => a.timeSlots.map (·.availableSpots)) = some [5] ∧
    (lookupActivity
          (cancelBooking
            (paymentWebhook exHmac (some "ws") exDB2 "ws#raw" "raw"
              "payment.failed" "o1" "p1" none 7 "tok").2.1
            "b1" "" "admin" 8).2 "a1").map
        (fun a => a.timeSlots.map (·.availableSpots)) = some [8] ∧
    ¬((8 : Int) ≤ 5) := by
  refine ⟨by decide, by decide, by decide⟩

theorem dayNums_succ (ymd : List Char) (k : Nat) :
    dayNums ymd (k + 1) =
      dayNums ymd k ++ [genNum ymd (dayNums ymd k).getLast?] := rfl

theorem digitChr_isDigit (d : Nat) : (digitChr d).isDigit = true := by
  unfold digitChr
  split <;> decide

theorem digitChr_val (d : Nat) (h : d < 10) : (digitChr d).toNat - 48 = d := by
  interval_cases d <;> decide

theorem digitsVal_append (l : List Char) (c : Char) :
    digitsVal (l ++ [c]) = 10 * digitsVal l + (c.toNat - 48) := by
  simp [digitsVal, List.foldl_append]

theorem foldl_zero_replicate (k : Nat) :
    List.foldl (fun a c => 10 * a + (c.toNat - 48)) 0
      (List.replicate k '0') = 0 := by
  induction k with
  | zero => rfl
  | succ k ih => simpa [List.replicate_succ] using ih

theorem digitsVal_padZero (w : Nat) (l : List Char) :
    digitsVal (padZero w l) = digitsVal l := by
  simp [padZero, digitsVal, List.foldl_append, foldl_zero_replicate]

theorem toCharsF_val (fuel : Nat) :
    ∀ n, n < 10 ^ fuel → digitsVal (toCharsF fuel n) = n := by
  induction fuel with
  | zero =>
    intro n h
    interval_cases n
    rfl
  | succ fuel ih =>
    intro n h
    by_cases h10 : n < 10
    · simp only [toCharsF, if_pos h10]
      show 10 * 0 + ((digitChr n).toNat - 48) = n
      rw [digitChr_val n h10]
      omega
    · have hdiv : n / 10 < 10 ^ fuel := by
        rw [Nat.div_lt_iff_lt_mul (by norm_num)]
        calc n < 10 ^ (fuel + 1) := h
          _ = 10 ^ fuel * 10 := by ring
      rw [toCharsF, if_neg h10, digitsVal_append, ih (n / 10) hdiv,
        digitChr_val (n % 10) (Nat.mod_lt n (by norm_num))]
      omega

theorem toCharsF_digits (fuel : Nat) :
    ∀ n c, c ∈ toCharsF fuel n → c.isDigit = true := by
  induction fuel with
  | zero => intro n c hc; simp [toCharsF] at hc
  | succ fuel ih =>
    intro n c hc
    by_cases h10 : n < 10
    · simp only [toCharsF, if_pos h10, List.mem_singleton] at hc
      exact hc ▸ digitChr_isDigit n
    · rw [toCharsF, if_neg h10] at hc
      rcases List.mem_append.mp hc with hc | hc
      · exact ih (n / 10) c hc
      · rw [List.mem_singleton.mp hc]
        exact digitChr_isDigit (n % 10)

theorem toCharsF_len (fuel : Nat) :
    ∀ n j, 1 ≤ j → n < 10 ^ j → (toCharsF fuel n).length ≤ j := by
  induction fuel with
  | zero => intro n j hj _; simp [toCharsF]
  | succ fuel ih =>
    intro n j hj hnj
    by_cases h10 : n < 10
    · simpa [toCharsF, if_pos h10] using hj
    · rw [toCharsF, if_neg h10, List.length_append]
      have hj2 : 2 ≤ j := by
        by_contra hcon
        have : j = 1 := by omega
        rw [this] at hnj
        simp at hnj
        omega
      have hdiv : n / 10 < 10 ^ (j - 1) := by
        rw [Nat.div_lt_iff_lt_mul (by norm_num)]
        calc n < 10 ^ j := hnj
          _ = 10 ^ (j - 1) * 10 := by
            rw [← pow_succ]
            congr 1
            omega
      have := ih (n / 10) (j - 1) (by omega) hdiv
      simp only [List.length_singleton]
      omega

theorem natToChars_val (n : Nat) : digitsVal (natToChars n) = n :=
  toCharsF_val (n + 1) n
    (lt_of_lt_of_le (Nat.lt_pow_self (by norm_num) n)
      (Nat.pow_le_pow_right (by norm_num) (Nat.le_succ n)))

theorem natToChars_digits (n : Nat) :
    ∀ c ∈ natToChars n, c.isDigit = true :=
  fun c hc => toCharsF_digits (n + 1) n c hc

theorem natToChars_len_le4 (n : Nat) (h : n ≤ 9999) :
    (natToChars n).length ≤ 4 :=
  toCharsF_len (n + 1) n 4 (by norm_num) (by omega)

theorem padZero_length (l : List Char) (h : l.length ≤ 4) :
    (padZero 4 l).length = 4 := by
  simp [padZero]
  omega

theorem padZero_digits (w : Nat) (l : List Char)
    (h : ∀ c ∈ l, c.isDigit = true) :
    ∀ c ∈ padZero w l, c.isDigit = true := by
  intro c hc
  rcases List.mem_append.mp hc with hc | hc
  · rw [List.eq_of_mem_replicate hc]; decide
  · exact h c hc

theorem isDigit_not_whitespace (c : Char) (h : c.isDigit = true) :
    c.isWhitespace = false := by
  rcases hw : c.isWhitespace with _ | _
  · rfl
  · exfalso
    simp [Char.isWhitespace] at hw
    rcases hw with ((rfl | rfl) | rfl) | rfl <;> exact absurd h (by decide)

theorem isDigit_ne_dash (c : Char) (h : c.isDigit = true) : ¬(c = '-') := by
  intro h2; subst h2; exact absurd h (by decide)

theorem isDigit_ne_plus (c : Char) (h : c.isDigit = true) : ¬(c = '+') := by
  intro h2; subst h2; exact absurd h (by decide)

theorem takeWhile_digits (l : List Char)
    (h : ∀ c ∈ l, c.isDigit = true) :
    l.takeWhile (fun x => x.isDigit) = l := by
  induction l with
  | nil => rfl
  | cons c r ih =>
    rw [List.takeWhile_cons, if_pos (h c (by simp))]
    rw [ih (fun x hx => h x (by simp [hx]))]

/-- `parseInt` of a nonempty all-digit string is its decimal value. -/
theorem parseIntJS_digits (l : List Char) (hne : l ≠ [])
    (hd : ∀ c ∈ l, c.isDigit = true) :
    parseIntJS l = some ((digitsVal l : Int)) := by
  cases l with
  | nil => exact absurd rfl hne
  | cons c r =>
    have hcd : c.isDigit = true := hd c (by simp)
    rw [parseIntJS, List.dropWhile_cons,
      if_neg (by simp [isDigit_not_whitespace c hcd])]
    dsimp only
    rw [if_neg (isDigit_ne_dash c hcd), if_neg (isDigit_ne_plus c hcd),
      takeWhile_digits _ hd]
    simp

theorem sliceLast_append_exact (n : Nat) (l s : List Char)
    (h : s.length = n) : sliceLast n (l ++ s) = s := by
  rw [sliceLast, List.length_append, h, Nat.add_sub_cancel,
    List.drop_left]

theorem sliceLast_append_long (n : Nat) (l s : List Char)
    (h : n ≤ s.length) : sliceLast n (l ++ s) = sliceLast n s := by
  rw [sliceLast, sliceLast, List.length_append,
    show l.length + s.length - n = l.length + (s.length - n) by omega,
    List.drop_append]

theorem mkNum_assoc (ymd : List Char) (s : Nat) :
    mkNum ymd s =
      (['B', 'K', '-'] ++ ymd ++ ['-']) ++ padZero 4 (natToChars s) := by
  simp [mkNum]

theorem mkNum_slice (ymd : List Char) (s : Nat) (h : s ≤ 9999) :
    sliceLast 4 (mkNum ymd s) = padZero 4 (natToChars s) := by
  rw [mkNum_assoc,
    sliceLast_append_exact 4 _ _ (padZero_length _ (natToChars_len_le4 s h))]

theorem mkNum_parse (ymd : List Char) (s : Nat) (h : s ≤ 9999) :
    parseIntJS (sliceLast 4 (mkNum ymd s)) = some (s : Int) := by
  rw [mkNum_slice ymd s h,
    parseIntJS_digits _
      (by
        intro hcon
        have := padZero_length (natToChars s) (natToChars_len_le4 s h)
        rw [hcon] at this
        simp at this)
      (padZero_digits 4 _ (natToChars_digits s)),
    digitsVal_padZero, natToChars_val]

theorem intToChars_coe (m : Nat) : intToChars (m : Int) = natToChars m := by
  rw [intToChars, if_neg (by omega), Int.natAbs_ofNat]

/-- One allocation step: from a stored `mkNum ymd s` with `s ≤ 9999`,
the next number is `mkNum ymd (s + 1)` (this includes the widening step
`9999 → 10000`). -/
theorem genNum_step (ymd : List Char) (s : Nat) (h : s ≤ 9999) :
    genNum ymd (some (mkNum ymd s)) = mkNum ymd (s + 1) := by
  rw [genNum, nextSeq, mkNum_parse ymd s h]
  dsimp only
  rw [show (s : Int) + 1 = ((s + 1 : Nat) : Int) by push_cast; ring,
    intToChars_coe]
  rfl

/-- The first allocation of a day. -/
theorem genNum_none (ymd : List Char) : genNum ymd none = mkNum ymd 1 := rfl

/-- The wrap: after the widened number `BK-…-10000`, the allocator reads
only the last four characters (`"0000"`), parses 0, and produces
`BK-…-0001` again. -/
theorem genNum_wrap (ymd : List Char) :
    genNum ymd (some (mkNum ymd 10000)) = mkNum ymd 1 := by
  have hslice : sliceLast 4 (mkNum ymd 10000) = ['0', '0', '0', '0'] := by
    rw [mkNum_assoc,
      sliceLast_append_long 4 _ _ (by decide), show padZero 4
        (natToChars 10000) = ['1', '0', '0', '0', '0'] from rfl]
    rfl
  rw [genNum, nextSeq, hslice]
  rfl

/-- The trace of a day's allocations: as long as at most 10000 numbers
are allocated, the `k`-th (0-based) is `mkNum ymd (k + 1)`. -/
theorem dayNums_eq (ymd : List Char) :
    ∀ k, k ≤ 10000 →
      dayNums ymd k = (List.range k).map (fun i => mkNum ymd (i + 1)) := by
  intro k
  induction k with
  | zero => intro; rfl
  | succ k ih =>
    intro hk
    have hk' : k ≤ 10000 := by omega
    rw [dayNums, ih hk', List.range_succ, List.map_append]
    congr 1
    cases k with
    | zero => simp [genNum_none]
    | succ m =>
      have hlast : ((List.range (m + 1)).map
          (fun i => mkNum ymd (i + 1))).getLast? =
            some (mkNum ymd (m + 1)) := by
        rw [List.range_succ, List.map_append]
        simp
      rw [hlast, genNum_step ymd (m + 1) (by omega)]
      rfl

theorem dayNums_getD (ymd : List Char) (k i : Nat) (hk : k ≤ 10000)
    (hik : i < k) : (dayNums ymd k).getD i [] = mkNum ymd (i + 1) := by
  rw [dayNums_eq ymd k hk, List.getD_eq_getElem?_getD, List.getElem?_map,
    List.getElem?_range hik]
  rfl

/-- C6 (amended): as long as the day's sequence stays at most 9999, the
allocated numbers have the format `BK-{YY}{MM}{DD}-{seq 4-padded}`, are
pairwise distinct, and their sequence numbers strictly increase in
allocation order; the allocation after sequence 9999 widens the field to
`BK-…-10000`.  (The allocation after that wraps back — see the
counterexample.) -/
theorem c6_day_numbers (ymd : List Char) (k i j : Nat) (hk : k ≤ 10000)
    (hij : i < j) (hjk : j < k) (hj : j < 9999) :
    (dayNums ymd k).getD i [] = mkNum ymd (i + 1) ∧
    (dayNums ymd k).getD j [] = mkNum ymd (j + 1) ∧
    (dayNums ymd k).getD i [] ≠ (dayNums ymd k).getD j [] ∧
    parseIntJS (sliceLast 4 ((dayNums ymd k).getD i [])) =
      some ((i : Int) + 1) ∧
    parseIntJS (sliceLast 4 ((dayNums ymd k).getD j [])) =
      some ((j : Int) + 1) ∧
    (i : Int) + 1 < (j : Int) + 1 ∧
    (dayNums ymd 10000).getD 9999 [] = mkNum ymd 10000 := by
  have hi9 : i + 1 ≤ 9999 := by omega
  have hj9 : j + 1 ≤ 9999 := by omega
  have hgi := dayNums_getD ymd k i hk (by omega)
  have hgj := dayNums_getD ymd k j hk hjk
  refine ⟨hgi, hgj, ?_, ?_, ?_, by omega, ?_⟩
  · rw [hgi, hgj]
    intro hcon
    have hpi := mkNum_parse ymd (i + 1) hi9
    rw [hcon, mkNum_parse ymd (j + 1) hj9] at hpi
    simp at hpi
    omega
  · rw [hgi, mkNum_parse ymd (i + 1) hi9]
    push_cast
    ring_nf
  · rw [hgj, mkNum_parse ymd (j + 1) hj9]
    push_cast
    ring_nf
  · exact dayNums_getD ymd 10000 9999 le_rfl (by omega)

/-- C6 witness: the first two numbers of day `251012` are
`BK-251012-0001` and `BK-251012-0002`, distinct, with sequences 1 < 2. -/
theorem c6_witness :
    (dayNums (dateKey 2025 9 12) 2).getD 0 [] =
      mkNum (dateKey 2025 9 12) 1 ∧
    (dayNums (dateKey 2025 9 12) 2).getD 1 [] =
      mkNum (dateKey 2025 9 12) 2 ∧
    (dayNums (dateKey 2025 9 12) 2).getD 0 [] ≠
      (dayNums (dateKey 2025 9 12) 2).getD 1 [] := by
  have h := c6_day_numbers (dateKey 2025 9 12) 2 0 1 (by omega) (by omega)
    (by omega) (by omega)
  exact ⟨h.1, h.2.1, h.2.2.1⟩

/-- C6 counterexample: on day `251012`, the 10000-th allocation widens
to `BK-251012-10000`, but the 10001-st allocation equals the very first
(`BK-251012-0001`): distinctness (and monotonicity) fails once the
sequence exceeds 9999. -/
theorem c6_counterexample :
    (dayNums (dateKey 2025 9 12) 10001).getD 9999 [] =
      mkNum (dateKey 2025 9 12) 10000 ∧
    (dayNums (dateKey 2025 9 12) 10001).getD 0 [] =
      mkNum (dateKey 2025 9 12) 1 ∧
    (dayNums (dateKey 2025 9 12) 10001).getD 10000 [] =
      mkNum (dateKey 2025 9 12) 1 ∧
    (0 : Nat) ≠ 10000 := by
  have hsplit : dayNums (dateKey 2025 9 12) 10001 =
      (List.range 10000).map
        (fun i => mkNum (dateKey 2025 9 12) (i + 1)) ++
      [mkNum (dateKey 2025 9 12) 1] := by
    rw [show (10001 : Nat) = 10000 + 1 from rfl, dayNums_succ,
      dayNums_eq (dateKey 2025 9 12) 10000 le_rfl]
    have hlast : ((List.range 10000).map
        (fun i => mkNum (dateKey 2025 9 12) (i + 1))).getLast? =
          some (mkNum (dateKey 2025 9 12) 10000) := by
      rw [show (10000 : Nat) = 9999 + 1 from rfl, List.range_succ,
        List.map_append]
      simp
    rw [hlast, genNum_wrap]
  have hlen : ((List.range 10000).map
      (fun i => mkNum (dateKey 2025 9 12) (i + 1))).length = 10000 := by
    simp
  refine ⟨?_, ?_, ?_, by omega⟩
  · rw [hsplit, List.getD_eq_getElem?_getD, List.getElem?_append,
      if_pos (by rw [hlen]; omega),
      List.getElem?_map, List.getElem?_range (by omega)]
    rfl
  · rw [hsplit, List.getD_eq_getElem?_getD, List.getElem?_append,
      if_pos (by rw [hlen]; omega),
      List.getElem?_map, List.getElem?_range (by omega)]
    rfl
  · rw [hsplit, List.getD_eq_getElem?_getD,
      List.getElem?_append_right (by rw [hlen]), hlen]
    rfl

theorem xor_lt256 {a b : Nat} (ha : a < 256) (hb : b < 256) :
    a ^^^ b < 256 :=
  (Nat.xor_lt_two_pow (show a < 2 ^ 8 from ha)
    (show b < 2 ^ 8 from hb) : a ^^^ b < 2 ^ 8)

theorem xtime_lt256F : ∀ x : Fin 256, xtime x.val < 256 := by decide

theorem xtime_lt256 {x : Nat} (h : x < 256) : xtime x < 256 :=
  xtime_lt256F ⟨x, h⟩

theorem xor_left_comm (a b c : Nat) :
    a ^^^ (b ^^^ c) = b ^^^ (a ^^^ c) := by
  rw [← Nat.xor_assoc, Nat.xor_comm a b, Nat.xor_assoc]

theorem two_mul_xor (a b : Nat) : 2 * (a ^^^ b) = 2 * a ^^^ 2 * b := by
  have h2 : ∀ x : Nat, 2 * x = x <<< 1 := fun x => by
    rw [Nat.shiftLeft_eq, pow_one, Nat.mul_comm]
  rw [h2, h2, h2]
  apply Nat.eq_of_testBit_eq
  intro i
  simp only [Nat.testBit_shiftLeft, Nat.testBit_xor]
  by_cases hi : 1 ≤ i <;> simp [hi]

theorem testBit7_lt128 {a : Nat} (ha : a < 256) :
    a.testBit 7 = false ↔ a < 128 := by
  rw [Nat.testBit_to_div_mod]
  constructor
  · intro h
    simp at h
    omega
  · intro h
    simp
    omega

theorem xtime_linear {a b : Nat} (ha : a < 256) (hb : b < 256) :
    xtime (a ^^^ b) = xtime a ^^^ xtime b := by
  have hxor : a ^^^ b < 256 := xor_lt256 ha hb
  have hbit : (a ^^^ b).testBit 7 = ((a.testBit 7).xor (b.testBit 7)) :=
    Nat.testBit_xor a b 7
  by_cases h1 : a < 128 <;> by_cases h2 : b < 128
  · have h3 : a ^^^ b < 128 := by
      apply (testBit7_lt128 hxor).mp
      rw [hbit, (testBit7_lt128 ha).mpr h1, (testBit7_lt128 hb).mpr h2]
      rfl
    rw [xtime, xtime, xtime, if_pos h1, if_pos h2, if_pos h3,
      two_mul_xor]
  · have hb7 : b.testBit 7 = true := by
      cases hc : b.testBit 7 with
      | false => exact absurd ((testBit7_lt128 hb).mp hc) h2
      | true => rfl
    have h3 : ¬(a ^^^ b < 128) := by
      intro hcon
      have hfalse := (testBit7_lt128 hxor).mpr hcon
      rw [hbit, (testBit7_lt128 ha).mpr h1, hb7] at hfalse
      simp at hfalse
    rw [xtime, xtime, xtime, if_neg h3, if_pos h1, if_neg h2,
      two_mul_xor, Nat.xor_assoc]
  · have ha7 : a.testBit 7 = true := by
      cases hc : a.testBit 7 with
      | false => exact absurd ((testBit7_lt128 ha).mp hc) h1
      | true => rfl
    have h3 : ¬(a ^^^ b < 128) := by
      intro hcon
      have hfalse := (testBit7_lt128 hxor).mpr hcon
      rw [hbit, (testBit7_lt128 hb).mpr h2, ha7] at hfalse
      simp at hfalse
    rw [xtime, xtime, xtime, if_neg h3, if_neg h1, if_pos h2,
      two_mul_xor]
    rw [Nat.xor_assoc, Nat.xor_assoc, Nat.xor_comm (2 * b) 283]
  · have ha7 : a.testBit 7 = true := by
      cases hc : a.testBit 7 with
      | false => exact absurd ((testBit7_lt128 ha).mp hc) h1
      | true => rfl
    have hb7 : b.testBit 7 = true := by
      cases hc : b.testBit 7 with
      | false => exact absurd ((testBit7_lt128 hb).mp hc) h2
      | true => rfl
    have h3 : a ^^^ b < 128 := by
      apply (testBit7_lt128 hxor).mp
      rw [hbit, ha7, hb7]
      rfl
    rw [xtime, xtime, xtime, if_pos h3, if_neg h1, if_neg h2,
      two_mul_xor]
    calc 2 * a ^^^ 2 * b
        = (2 * a ^^^ 283) ^^^ (283 ^^^ 2 * b) := by
          rw [← Nat.xor_assoc, Nat.xor_assoc (2 * a) 283 283,
            Nat.xor_self, Nat.xor_zero]
      _ = (2 * a ^^^ 283) ^^^ (2 * b ^^^ 283) := by
          rw [Nat.xor_comm 283 (2 * b)]

theorem gmulF_lt256 (fuel : Nat) :
    ∀ a x, x < 256 → gmulF fuel a x < 256 := by
  induction fuel with
  | zero => intro a x _; simp [gmulF]
  | succ fuel ih =>
    intro a x hx
    rw [gmulF]
    by_cases ha : a = 0
    · simp [ha]
    · rw [if_neg ha]
      have hr := ih (a / 2) (xtime x) (xtime_lt256 hx)
      by_cases hodd : a % 2 = 1
      · rw [if_pos hodd]
        exact xor_lt256 hx hr
      · rw [if_neg hodd]
        simpa using hr

theorem gmul_lt256 (a : Nat) {x : Nat} (hx : x < 256) : gmul a x < 256 :=
  gmulF_lt256 8 a x hx

theorem gmulF_xor (fuel : Nat) :
    ∀ a x y, x < 256 → y < 256 →
      gmulF fuel a (x ^^^ y) = gmulF fuel a x ^^^ gmulF fuel a y := by
  induction fuel with
  | zero => intro a x y _ _; simp [gmulF]
  | succ fuel ih =>
    intro a x y hx hy
    by_cases ha : a = 0
    · simp [gmulF, ha]
    · rw [gmulF, gmulF, gmulF, if_neg ha, if_neg ha, if_neg ha,
        xtime_linear hx hy,
        ih (a / 2) (xtime x) (xtime y) (xtime_lt256 hx) (xtime_lt256 hy)]
      by_cases hodd : a % 2 = 1
      · rw [if_pos hodd, if_pos hodd, if_pos hodd]
        simp only [Nat.xor_assoc]
        congr 1
        exact xor_left_comm _ _ _
      · rw [if_neg hodd, if_neg hodd, if_neg hodd]
        simp

theorem gmul_xor (a : Nat) {x y : Nat} (hx : x < 256) (hy : y < 256) :
    gmul a (x ^^^ y) = gmul a x ^^^ gmul a y :=
  gmulF_xor 8 a x y hx hy

theorem gmul_xor4 (k : Nat) {x y z w : Nat} (hx : x < 256) (hy : y < 256)
    (hz : z < 256) (hw : w < 256) :
    gmul k (x ^^^ y ^^^ z ^^^ w) =
      gmul k x ^^^ gmul k y ^^^ gmul k z ^^^ gmul k w := by
  rw [gmul_xor k (xor_lt256 (xor_lt256 hx hy) hz) hw,
    gmul_xor k (xor_lt256 hx hy) hz, gmul_xor k hx hy]

theorem invSbox_sboxF : ∀ x : Fin 256, invSbox (sbox x.val) = x.val := by
  decide

theorem invSbox_sbox {x : Nat} (h : x < 256) : invSbox (sbox x) = x :=
  invSbox_sboxF ⟨x, h⟩

theorem sbox_lt256F : ∀ x : Fin 256, sbox x.val < 256 := by decide

theorem sbox_lt256 {x : Nat} (h : x < 256) : sbox x < 256 :=
  sbox_lt256F ⟨x, h⟩

/-- Regrouping of a 16-term xor (four column contributions grouped by
source byte). -/
theorem xor_regroup16 (a1 b1 c1 d1 a2 b2 c2 d2 a3 b3 c3 d3
    a4 b4 c4 d4 : Nat) :
    (a1 ^^^ b1 ^^^ c1 ^^^ d1) ^^^ (a2 ^^^ b2 ^^^ c2 ^^^ d2) ^^^
      (a3 ^^^ b3 ^^^ c3 ^^^ d3) ^^^ (a4 ^^^ b4 ^^^ c4 ^^^ d4) =
    (a1 ^^^ a2 ^^^ a3 ^^^ a4) ^^^ (b1 ^^^ b2 ^^^ b3 ^^^ b4) ^^^
      (c1 ^^^ c2 ^^^ c3 ^^^ c4) ^^^ (d1 ^^^ d2 ^^^ d3 ^^^ d4) := by
  simp only [Nat.xor_assoc]
  simp [Nat.xor_comm, xor_left_comm]

theorem cmix00F : ∀ x : Fin 256, gmul 14 (gmul 2 x.val) ^^^ gmul 11 (x.val) ^^^ gmul 13 (x.val) ^^^ gmul 9 (gmul 3 x.val) = x.val := by
  decide

theorem cmix00 (x : Nat) (h : x < 256) : gmul 14 (gmul 2 x) ^^^ gmul 11 (x) ^^^ gmul 13 (x) ^^^ gmul 9 (gmul 3 x) = x :=
  cmix00F ⟨x, h⟩

theorem cmix01F : ∀ x : Fin 256, gmul 14 (gmul 3 x.val) ^^^ gmul 11 (gmul 2 x.val) ^^^ gmul 13 (x.val) ^^^ gmul 9 (x.val) = 0 := by
  decide

theorem cmix01 (x : Nat) (h : x < 256) : gmul 14 (gmul 3 x) ^^^ gmul 11 (gmul 2 x) ^^^ gmul 13 (x) ^^^ gmul 9 (x) = 0 :=
  cmix01F ⟨x, h⟩

theorem cmix02F : ∀ x : Fin 256, gmul 14 (x.val) ^^^ gmul 11 (gmul 3 x.val) ^^^ gmul 13 (gmul 2 x.val) ^^^ gmul 9 (x.val) = 0 := by
  decide

theorem cmix02 (x : Nat) (h : x < 256) : gmul 14 (x) ^^^ gmul 11 (gmul 3 x) ^^^ gmul 13 (gmul 2 x) ^^^ gmul 9 (x) = 0 :=
  cmix02F ⟨x, h⟩

theorem cmix03F : ∀ x : Fin 256, gmul 14 (x.val) ^^^ gmul 11 (x.val) ^^^ gmul 13 (gmul 3 x.val) ^^^ gmul 9 (gmul 2 x.val) = 0 := by
  decide

theorem cmix03 (x : Nat) (h : x < 256) : gmul 14 (x) ^^^ gmul 11 (x) ^^^ gmul 13 (gmul 3 x) ^^^ gmul 9 (gmul 2 x) = 0 :=
  cmix03F ⟨x, h⟩

theorem cmix10F : ∀ x : Fin 256, gmul 9 (gmul 2 x.val) ^^^ gmul 14 (x.val) ^^^ gmul 11 (x.val) ^^^ gmul 13 (gmul 3 x.val) = 0 := by
  decide

theorem cmix10 (x : Nat) (h : x < 256) : gmul 9 (gmul 2 x) ^^^ gmul 14 (x) ^^^ gmul 11 (x) ^^^ gmul 13 (gmul 3 x) = 0 :=
  cmix10F ⟨x, h⟩

theorem cmix11F : ∀ x : Fin 256, gmul 9 (gmul 3 x.val) ^^^ gmul 14 (gmul 2 x.val) ^^^ gmul 11 (x.val) ^^^ gmul 13 (x.val) = x.val := by
  decide

theorem cmix11 (x : Nat) (h : x < 256) : gmul 9 (gmul 3 x) ^^^ gmul 14 (gmul 2 x) ^^^ gmul 11 (x) ^^^ gmul 13 (x) = x :=
  cmix11F ⟨x, h⟩

theorem cmix12F : ∀ x : Fin 256, gmul 9 (x.val) ^^^ gmul 14 (gmul 3 x.val) ^^^ gmul 11 (gmul 2 x.val) ^^^ gmul 13 (x.val) = 0 := by
  decide

theorem cmix12 (x : Nat) (h : x < 256) : gmul 9 (x) ^^^ gmul 14 (gmul 3 x) ^^^ gmul 11 (gmul 2 x) ^^^ gmul 13 (x) = 0 :=
  cmix12F ⟨x, h⟩

theorem cmix13F : ∀ x : Fin 256, gmul 9 (x.val) ^^^ gmul 14 (x.val) ^^^ gmul 11 (gmul 3 x.val) ^^^ gmul 13 (gmul 2 x.val) = 0 := by
  decide

theorem cmix13 (x : Nat) (h : x < 256) : gmul 9 (x) ^^^ gmul 14 (x) ^^^ gmul 11 (gmul 3 x) ^^^ gmul 13 (gmul 2 x) = 0 :=
  cmix13F ⟨x, h⟩

theorem cmix20F : ∀ x : Fin 256, gmul 13 (gmul 2 x.val) ^^^ gmul 9 (x.val) ^^^ gmul 14 (x.val) ^^^ gmul 11 (gmul 3 x.val) = 0 := by
  decide

theorem cmix20 (x : Nat) (h : x < 256) : gmul 13 (gmul 2 x) ^^^ gmul 9 (x) ^^^ gmul 14 (x) ^^^ gmul 11 (gmul 3 x) = 0 :=
  cmix20F ⟨x, h⟩

theorem cmix21F : ∀ x : Fin 256, gmul 13 (gmul 3 x.val) ^^^ gmul 9 (gmul 2 x.val) ^^^ gmul 14 (x.val) ^^^ gmul 11 (x.val) = 0 := by
  decide

theorem cmix21 (x : Nat) (h : x < 256) : gmul 13 (gmul 3 x) ^^^ gmul 9 (gmul 2 x) ^^^ gmul 14 (x) ^^^ gmul 11 (x) = 0 :=
  cmix21F ⟨x, h⟩

theorem cmix22F : ∀ x : Fin 256, gmul 13 (x.val) ^^^ gmul 9 (gmul 3 x.val) ^^^ gmul 14 (gmul 2 x.val) ^^^ gmul 11 (x.val) = x.val := by
  decide

theorem cmix22 (x : Nat) (h : x < 256) : gmul 13 (x) ^^^ gmul 9 (gmul 3 x) ^^^ gmul 14 (gmul 2 x) ^^^ gmul 11 (x) = x :=
  cmix22F ⟨x, h⟩

theorem cmix23F : ∀ x : Fin 256, gmul 13 (x.val) ^^^ gmul 9 (x.val) ^^^ gmul 14 (gmul 3 x.val) ^^^ gmul 11 (gmul 2 x.val) = 0 := by
  decide

theorem cmix23 (x : Nat) (h : x < 256) : gmul 13 (x) ^^^ gmul 9 (x) ^^^ gmul 14 (gmul 3 x) ^^^ gmul 11 (gmul 2 x) = 0 :=
  cmix23F ⟨x, h⟩

theorem cmix30F : ∀ x : Fin 256, gmul 11 (gmul 2 x.val) ^^^ gmul 13 (x.val) ^^^ gmul 9 (x.val) ^^^ gmul 14 (gmul 3 x.val) = 0 := by
  decide

theorem cmix30 (x : Nat) (h : x < 256) : gmul 11 (gmul 2 x) ^^^ gmul 13 (x) ^^^ gmul 9 (x) ^^^ gmul 14 (gmul 3 x) = 0 :=
  cmix30F ⟨x, h⟩

theorem cmix31F : ∀ x : Fin 256, gmul 11 (gmul 3 x.val) ^^^ gmul 13 (gmul 2 x.val) ^^^ gmul 9 (x.val) ^^^ gmul 14 (x.val) = 0 := by
  decide

theorem cmix31 (x : Nat) (h : x < 256) : gmul 11 (gmul 3 x) ^^^ gmul 13 (gmul 2 x) ^^^ gmul 9 (x) ^^^ gmul 14 (x) = 0 :=
  cmix31F ⟨x, h⟩

theorem cmix32F : ∀ x : Fin 256, gmul 11 (x.val) ^^^ gmul 13 (gmul 3 x.val) ^^^ gmul 9 (gmul 2 x.val) ^^^ gmul 14 (x.val) = 0 := by
  decide

theorem cmix32 (x : Nat) (h : x < 256) : gmul 11 (x) ^^^ gmul 13 (gmul 3 x) ^^^ gmul 9 (gmul 2 x) ^^^ gmul 14 (x) = 0 :=
  cmix32F ⟨x, h⟩

theorem cmix33F : ∀ x : Fin 256, gmul 11 (x.val) ^^^ gmul 13 (x.val) ^^^ gmul 9 (gmul 3 x.val) ^^^ gmul 14 (gmul 2 x.val) = x.val := by
  decide

theorem cmix33 (x : Nat) (h : x < 256) : gmul 11 (x) ^^^ gmul 13 (x) ^^^ gmul 9 (gmul 3 x) ^^^ gmul 14 (gmul 2 x) = x :=
  cmix33F ⟨x, h⟩

theorem invMixColL_mixColL (a b c d : Nat) (ha : a < 256) (hb : b < 256)
    (hc : c < 256) (hd : d < 256) :
    invMixColL (mixColL [a, b, c, d]) = [a, b, c, d] := by
  show [gmul 14 (gmul 2 a ^^^ gmul 3 b ^^^ c ^^^ d) ^^^
      gmul 11 (a ^^^ gmul 2 b ^^^ gmul 3 c ^^^ d) ^^^
      gmul 13 (a ^^^ b ^^^ gmul 2 c ^^^ gmul 3 d) ^^^
      gmul 9 (gmul 3 a ^^^ b ^^^ c ^^^ gmul 2 d),
    gmul 9 (gmul 2 a ^^^ gmul 3 b ^^^ c ^^^ d) ^^^
      gmul 14 (a ^^^ gmul 2 b ^^^ gmul 3 c ^^^ d) ^^^
      gmul 11 (a ^^^ b ^^^ gmul 2 c ^^^ gmul 3 d) ^^^
      gmul 13 (gmul 3 a ^^^ b ^^^ c ^^^ gmul 2 d),
    gmul 13 (gmul 2 a ^^^ gmul 3 b ^^^ c ^^^ d) ^^^
      gmul 9 (a ^^^ gmul 2 b ^^^ gmul 3 c ^^^ d) ^^^
      gmul 14 (a ^^^ b ^^^ gmul 2 c ^^^ gmul 3 d) ^^^
      gmul 11 (gmul 3 a ^^^ b ^^^ c ^^^ gmul 2 d),
    gmul 11 (gmul 2 a ^^^ gmul 3 b ^^^ c ^^^ d) ^^^
      gmul 13 (a ^^^ gmul 2 b ^^^ gmul 3 c ^^^ d) ^^^
      gmul 9 (a ^^^ b ^^^ gmul 2 c ^^^ gmul 3 d) ^^^
      gmul 14 (gmul 3 a ^^^ b ^^^ c ^^^ gmul 2 d)] = [a, b, c, d]
  have e0 := gmul_xor4 14 (gmul_lt256 2 ha) (gmul_lt256 3 hb) hc hd
  have e1 := gmul_xor4 11 ha (gmul_lt256 2 hb) (gmul_lt256 3 hc) hd
  have e2 := gmul_xor4 13 ha hb (gmul_lt256 2 hc) (gmul_lt256 3 hd)
  have e3 := gmul_xor4 9 (gmul_lt256 3 ha) hb hc (gmul_lt256 2 hd)
  have f0 := gmul_xor4 9 (gmul_lt256 2 ha) (gmul_lt256 3 hb) hc hd
  have f1 := gmul_xor4 14 ha (gmul_lt256 2 hb) (gmul_lt256 3 hc) hd
  have f2 := gmul_xor4 11 ha hb (gmul_lt256 2 hc) (gmul_lt256 3 hd)
  have f3 := gmul_xor4 13 (gmul_lt256 3 ha) hb hc (gmul_lt256 2 hd)
  have g0 := gmul_xor4 13 (gmul_lt256 2 ha) (gmul_lt256 3 hb) hc hd
  have g1 := gmul_xor4 9 ha (gmul_lt256 2 hb) (gmul_lt256 3 hc) hd
  have g2 := gmul_xor4 14 ha hb (gmul_lt256 2 hc) (gmul_lt256 3 hd)
  have g3 := gmul_xor4 11 (gmul_lt256 3 ha) hb hc (gmul_lt256 2 hd)
  have k0 := gmul_xor4 11 (gmul_lt256 2 ha) (gmul_lt256 3 hb) hc hd
  have k1 := gmul_xor4 13 ha (gmul_lt256 2 hb) (gmul_lt256 3 hc) hd
  have k2 := gmul_xor4 9 ha hb (gmul_lt256 2 hc) (gmul_lt256 3 hd)
  have k3 := gmul_xor4 14 (gmul_lt256 3 ha) hb hc (gmul_lt256 2 hd)
  rw [e0, e1, e2, e3, f0, f1, f2, f3, g0, g1, g2, g3, k0, k1, k2, k3]
  nth_rewrite 1 [xor_regroup16]
  nth_rewrite 2 [xor_regroup16]
  nth_rewrite 3 [xor_regroup16]
  nth_rewrite 4 [xor_regroup16]
  rw [cmix00 a ha, cmix01 b hb, cmix02 c hc, cmix03 d hd,
    cmix10 a ha, cmix11 b hb, cmix12 c hc, cmix13 d hd,
    cmix20 a ha, cmix21 b hb, cmix22 c hc, cmix23 d hd,
    cmix30 a ha, cmix31 b hb, cmix32 c hc, cmix33 d hd]
  simp

theorem mixColL_bounds (a b c d : Nat) (ha : a < 256) (hb : b < 256)
    (hc : c < 256) (hd : d < 256) :
    ∀ x ∈ mixColL [a, b, c, d], x < 256 := by
  intro x hx
  simp only [mixColL, List.mem_cons, List.not_mem_nil, or_false] at hx
  rcases hx with rfl | rfl | rfl | rfl
  · exact xor_lt256 (xor_lt256 (xor_lt256 (gmul_lt256 2 ha)
      (gmul_lt256 3 hb)) hc) hd
  · exact xor_lt256 (xor_lt256 (xor_lt256 ha (gmul_lt256 2 hb))
      (gmul_lt256 3 hc)) hd
  · exact xor_lt256 (xor_lt256 (xor_lt256 ha hb) (gmul_lt256 2 hc))
      (gmul_lt256 3 hd)
  · exact xor_lt256 (xor_lt256 (xor_lt256 (gmul_lt256 3 ha) hb) hc)
      (gmul_lt256 2 hd)

theorem exists16 (s : List Nat) (h : s.length = 16) :
    ∃ a0 a1 a2 a3 a4 a5 a6 a7 a8 a9 b0 b1 b2 b3 b4 b5,
      s = [a0, a1, a2, a3, a4, a5, a6, a7, a8, a9, b0, b1, b2, b3, b4, b5] := by
  rcases s with _ | ⟨a0, _ | ⟨a1, _ | ⟨a2, _ | ⟨a3, _ | ⟨a4, _ | ⟨a5, _ | ⟨a6, _ | ⟨a7,
    _ | ⟨a8, _ | ⟨a9, _ | ⟨b0, _ | ⟨b1, _ | ⟨b2, _ | ⟨b3, _ | ⟨b4, _ | ⟨b5,
    _ | ⟨c, t⟩⟩⟩⟩⟩⟩⟩⟩⟩⟩⟩⟩⟩⟩⟩⟩⟩ <;>
    simp only [List.length_cons, List.length_nil] at h
  all_goals first
  | omega
  | exact ⟨a0, a1, a2, a3, a4, a5, a6, a7, a8, a9, b0, b1, b2, b3, b4, b5, rfl⟩

theorem invShiftRows_shiftRows (s : List Nat) (h : s.length = 16) :
    invShiftRows (shiftRows s) = s := by
  obtain ⟨a0, a1, a2, a3, a4, a5, a6, a7, a8, a9, b0, b1, b2, b3, b4, b5, rfl⟩ :=
    exists16 s h
  rfl

theorem invSubBytes_subBytes (s : List Nat) (h : ∀ x ∈ s, x < 256) :
    invSubBytes (subBytes s) = s := by
  induction s with
  | nil => rfl
  | cons a t ih =>
    have ha : a < 256 := h a (by simp)
    have ht : ∀ x ∈ t, x < 256 := fun x hx => h x (by simp [hx])
    simp only [subBytes, invSubBytes, List.map_cons] at ih ⊢
    rw [invSbox_sbox ha, ih ht]

theorem mixColumns_cons4 (a b c d : Nat) (rest : List Nat) :
    mixColumns (a :: b :: c :: d :: rest) = mixColL [a, b, c, d] ++ mixColumns rest :=
  rfl

theorem invMixColumns_cons4 (a b c d : Nat) (rest : List Nat) :
    invMixColumns (a :: b :: c :: d :: rest) =
      invMixColL [a, b, c, d] ++ invMixColumns rest :=
  rfl

theorem mixColL_shape (a b c d : Nat) :
    ∃ w x y z, mixColL [a, b, c, d] = [w, x, y, z] := ⟨_, _, _, _, rfl⟩

theorem invMixColumns_mixColumns16 (s : List Nat) (h : s.length = 16)
    (hb : ∀ x ∈ s, x < 256) : invMixColumns (mixColumns s) = s := by
  obtain ⟨a0, a1, a2, a3, a4, a5, a6, a7, a8, a9, b0, b1, b2, b3, b4, b5, rfl⟩ :=
    exists16 s h
  have h0 : a0 < 256 := hb _ (by simp)
  have h1 : a1 < 256 := hb _ (by simp)
  have h2 : a2 < 256 := hb _ (by simp)
  have h3 : a3 < 256 := hb _ (by simp)
  have h4 : a4 < 256 := hb _ (by simp)
  have h5 : a5 < 256 := hb _ (by simp)
  have h6 : a6 < 256 := hb _ (by simp)
  have h7 : a7 < 256 := hb _ (by simp)
  have h8 : a8 < 256 := hb _ (by simp)
  have h9 : a9 < 256 := hb _ (by simp)
  have h10 : b0 < 256 := hb _ (by simp)
  have h11 : b1 < 256 := hb _ (by simp)
  have h12 : b2 < 256 := hb _ (by simp)
  have h13 : b3 < 256 := hb _ (by simp)
  have h14 : b4 < 256 := hb _ (by simp)
  have h15 : b5 < 256 := hb _ (by simp)
  obtain ⟨w0, x0, y0, z0, e0⟩ := mixColL_shape a0 a1 a2 a3
  obtain ⟨w1, x1, y1, z1, e1⟩ := mixColL_shape a4 a5 a6 a7
  obtain ⟨w2, x2, y2, z2, e2⟩ := mixColL_shape a8 a9 b0 b1
  obtain ⟨w3, x3, y3, z3, e3⟩ := mixColL_shape b2 b3 b4 b5
  rw [mixColumns_cons4, mixColumns_cons4, mixColumns_cons4, mixColumns_cons4,
    show mixColumns ([] : List Nat) = [] from rfl, List.append_nil]
  rw [e0, e1, e2, e3]
  simp only [List.cons_append, List.nil_append]
  rw [invMixColumns_cons4, invMixColumns_cons4, invMixColumns_cons4,
    invMixColumns_cons4, show invMixColumns ([] : List Nat) = [] from rfl,
    List.append_nil]
  rw [← e0, ← e1, ← e2, ← e3]
  rw [invMixColL_mixColL a0 a1 a2 a3 h0 h1 h2 h3,
    invMixColL_mixColL a4 a5 a6 a7 h4 h5 h6 h7,
    invMixColL_mixColL a8 a9 b0 b1 h8 h9 h10 h11,
    invMixColL_mixColL b2 b3 b4 b5 h12 h13 h14 h15]
  simp

theorem xorBytes_cancel : ∀ (u v : List Nat), u.length ≤ v.length →
    xorBytes (xorBytes u v) v = u
  | [], _, _ => rfl
  | a :: t, [], h => by simp at h
  | a :: t, b :: w, h => by
    have h' : t.length ≤ w.length := by simpa using h
    have ih := xorBytes_cancel t w h'
    simp only [xorBytes, List.zipWith_cons_cons] at ih ⊢
    rw [Nat.xor_cancel_right, ih]

theorem xorBytes_lt256 : ∀ (u v : List Nat), (∀ x ∈ u, x < 256) →
    (∀ x ∈ v, x < 256) → ∀ x ∈ xorBytes u v, x < 256
  | [], _, _, _ => by intro x hx; simp [xorBytes] at hx
  | _ :: _, [], _, _ => by intro x hx; simp [xorBytes] at hx
  | a :: t, b :: w, hu, hv => by
    intro x hx
    simp only [xorBytes, List.zipWith_cons_cons, List.mem_cons] at hx
    rcases hx with rfl | hx
    · exact xor_lt256 (hu a (by simp)) (hv b (by simp))
    · exact xorBytes_lt256 t w (fun y hy => hu y (by simp [hy]))
        (fun y hy => hv y (by simp [hy])) x hx

theorem good16_xorBytes {u v : List Nat} (hu : Good16 u) (hv : Good16 v) :
    Good16 (xorBytes u v) := by
  constructor
  · simp [xorBytes, List.length_zipWith, hu.1, hv.1]
  · exact xorBytes_lt256 u v hu.2 hv.2

theorem good16_subBytes {s : List Nat} (hs : Good16 s) : Good16 (subBytes s) := by
  constructor
  · simp [subBytes, hs.1]
  · intro x hx
    simp only [subBytes, List.mem_map] at hx
    obtain ⟨y, hy, rfl⟩ := hx
    exact sbox_lt256 (hs.2 y hy)

theorem good16_shiftRows {s : List Nat} (hs : Good16 s) : Good16 (shiftRows s) := by
  obtain ⟨a0, a1, a2, a3, a4, a5, a6, a7, a8, a9, b0, b1, b2, b3, b4, b5, rfl⟩ :=
    exists16 s hs.1
  have hb := hs.2
  constructor
  · rfl
  · intro x hx
    simp only [shiftRows, List.mem_cons, List.not_mem_nil, or_false] at hx
    rcases hx with rfl|rfl|rfl|rfl|rfl|rfl|rfl|rfl|rfl|rfl|rfl|rfl|rfl|rfl|rfl|rfl <;>
      exact hb _ (by simp)

theorem good16_mixColumns {s : List Nat} (hs : Good16 s) : Good16 (mixColumns s) := by
  obtain ⟨a0, a1, a2, a3, a4, a5, a6, a7, a8, a9, b0, b1, b2, b3, b4, b5, rfl⟩ :=
    exists16 s hs.1
  have h0 : a0 < 256 := hs.2 _ (by simp)
  have h1 : a1 < 256 := hs.2 _ (by simp)
  have h2 : a2 < 256 := hs.2 _ (by simp)
  have h3 : a3 < 256 := hs.2 _ (by simp)
  have h4 : a4 < 256 := hs.2 _ (by simp)
  have h5 : a5 < 256 := hs.2 _ (by simp)
  have h6 : a6 < 256 := hs.2 _ (by simp)
  have h7 : a7 < 256 := hs.2 _ (by simp)
  have h8 : a8 < 256 := hs.2 _ (by simp)
  have h9 : a9 < 256 := hs.2 _ (by simp)
  have h10 : b0 < 256 := hs.2 _ (by simp)
  have h11 : b1 < 256 := hs.2 _ (by simp)
  have h12 : b2 < 256 := hs.2 _ (by simp)
  have h13 : b3 < 256 := hs.2 _ (by simp)
  have h14 : b4 < 256 := hs.2 _ (by simp)
  have h15 : b5 < 256 := hs.2 _ (by simp)
  obtain ⟨w0, x0, y0, z0, e0⟩ := mixColL_shape a0 a1 a2 a3
  obtain ⟨w1, x1, y1, z1, e1⟩ := mixColL_shape a4 a5 a6 a7
  obtain ⟨w2, x2, y2, z2, e2⟩ := mixColL_shape a8 a9 b0 b1
  obtain ⟨w3, x3, y3, z3, e3⟩ := mixColL_shape b2 b3 b4 b5
  rw [mixColumns_cons4, mixColumns_cons4, mixColumns_cons4, mixColumns_cons4,
    show mixColumns ([] : List Nat) = [] from rfl, List.append_nil]
  constructor
  · rw [e0, e1, e2, e3]; rfl
  · intro x hx
    simp only [List.mem_append] at hx
    rcases hx with hx | hx | hx | hx
    · exact mixColL_bounds a0 a1 a2 a3 h0 h1 h2 h3 x hx
    · exact mixColL_bounds a4 a5 a6 a7 h4 h5 h6 h7 x hx
    · exact mixColL_bounds a8 a9 b0 b1 h8 h9 h10 h11 x hx
    · exact mixColL_bounds b2 b3 b4 b5 h12 h13 h14 h15 x hx

theorem encRounds_good : ∀ (rks : List (List Nat)) (s : List Nat),
    (∀ rk ∈ rks, Good16 rk) → Good16 s → Good16 (encRounds rks s)
  | [], _, _, hs => hs
  | [rk], s, hrk, hs => by
    simp only [encRounds, addRoundKey]
    exact good16_xorBytes (good16_shiftRows (good16_subBytes hs)) (hrk rk (by simp))
  | rk :: rk2 :: rks2, s, hrk, hs => by
    simp only [encRounds, addRoundKey]
    exact encRounds_good (rk2 :: rks2) _ (fun k hk => hrk k (by simp [hk]))
      (good16_xorBytes (good16_mixColumns (good16_shiftRows (good16_subBytes hs)))
        (hrk rk (by simp)))

theorem decRounds_encRounds : ∀ (rks : List (List Nat)) (s : List Nat),
    (∀ rk ∈ rks, Good16 rk) → Good16 s → decRounds rks (encRounds rks s) = s
  | [], _, _, _ => rfl
  | [rk], s, hrk, hs => by
    have hrkg := hrk rk (by simp)
    have hsub := good16_subBytes hs
    have hshift := good16_shiftRows hsub
    simp only [encRounds, decRounds, addRoundKey]
    rw [xorBytes_cancel _ _ (by rw [hshift.1, hrkg.1]),
      invShiftRows_shiftRows _ hsub.1, invSubBytes_subBytes s hs.2]
  | rk :: rk2 :: rks2, s, hrk, hs => by
    have hrkg := hrk rk (by simp)
    have hsub := good16_subBytes hs
    have hshift := good16_shiftRows hsub
    have hmix := good16_mixColumns hshift
    have hark : Good16 (xorBytes (mixColumns (shiftRows (subBytes s))) rk) :=
      good16_xorBytes hmix hrkg
    simp only [encRounds, decRounds, addRoundKey]
    rw [decRounds_encRounds (rk2 :: rks2) _ (fun k hk => hrk k (by simp [hk])) hark]
    rw [xorBytes_cancel _ _ (by rw [hmix.1, hrkg.1])]
    rw [invMixColumns_mixColumns16 _ hshift.1 hshift.2,
      invShiftRows_shiftRows _ hsub.1, invSubBytes_subBytes s hs.2]

theorem decBlock_encBlock (rks : List (List Nat)) (s : List Nat)
    (hrk : ∀ rk ∈ rks, Good16 rk) (hs : Good16 s) :
    decBlock rks (encBlock rks s) = s := by
  cases rks with
  | nil => rfl
  | cons rk0 rest =>
    have h0 := hrk rk0 (by simp)
    simp only [encBlock, decBlock, addRoundKey]
    rw [decRounds_encRounds rest _ (fun k hk => hrk k (by simp [hk]))
      (good16_xorBytes hs h0)]
    exact xorBytes_cancel s rk0 (by rw [hs.1, h0.1])

theorem encBlock_good (rks : List (List Nat)) (s : List Nat)
    (hrk : ∀ rk ∈ rks, Good16 rk) (hs : Good16 s) : Good16 (encBlock rks s) := by
  cases rks with
  | nil => exact hs
  | cons rk0 rest =>
    simp only [encBlock, addRoundKey]
    exact encRounds_good rest _ (fun k hk => hrk k (by simp [hk]))
      (good16_xorBytes hs (hrk rk0 (by simp)))


theorem getD_lt256 : ∀ (l : List Nat) (i : Nat), (∀ x ∈ l, x < 256) →
    l.getD i 0 < 256
  | [], _, _ => by simp [List.getD]
  | a :: t, 0, h => by simpa using h a (by simp)
  | a :: t, i + 1, h => by
    simpa using getD_lt256 t i (fun x hx => h x (by simp [hx]))

theorem getD_mem_of_lt {α : Type} (l : List α) (i : Nat) (d : α)
    (h : i < l.length) : l.getD i d ∈ l := by
  rw [List.getD_eq_getElem?_getD, List.getElem?_eq_getElem h, Option.getD_some]
  exact List.getElem_mem h

theorem exists4 (s : List Nat) (h : s.length = 4) :
    ∃ a b c d, s = [a, b, c, d] := by
  rcases s with _ | ⟨a, _ | ⟨b, _ | ⟨c, _ | ⟨d, _ | ⟨e, t⟩⟩⟩⟩⟩ <;>
    simp only [List.length_cons, List.length_nil] at h
  all_goals first
  | omega
  | exact ⟨a, b, c, d, rfl⟩

theorem goodW_xorBytes {u v : List Nat} (hu : GoodW u) (hv : GoodW v) :
    GoodW (xorBytes u v) := by
  constructor
  · simp [xorBytes, List.length_zipWith, hu.1, hv.1]
  · exact xorBytes_lt256 u v hu.2 hv.2

theorem goodW_subWord {w : List Nat} (h : GoodW w) : GoodW (subWord w) := by
  constructor
  · simp [subWord, h.1]
  · intro x hx
    simp only [subWord, List.mem_map] at hx
    obtain ⟨y, hy, rfl⟩ := hx
    exact sbox_lt256 (h.2 y hy)

theorem goodW_rotWord {w : List Nat} (h : GoodW w) : GoodW (rotWord w) := by
  obtain ⟨a, b, c, d, rfl⟩ := exists4 w h.1
  constructor
  · rfl
  · intro x hx
    simp only [rotWord, List.mem_cons, List.not_mem_nil, or_false] at hx
    rcases hx with rfl | rfl | rfl | rfl <;> exact h.2 _ (by simp)

theorem rconTable_lt256 : ∀ x ∈ rconTable, x < 256 := by decide

theorem goodW_rconWord (j : Nat) : GoodW [rconTable.getD j 0, 0, 0, 0] := by
  constructor
  · rfl
  · intro x hx
    simp only [List.mem_cons, List.not_mem_nil, or_false] at hx
    rcases hx with rfl | rfl | rfl | rfl
    · exact getD_lt256 rconTable j rconTable_lt256
    all_goals omega

theorem nextWord_good (ws : List (List Nat)) (h8 : 8 ≤ ws.length)
    (hg : ∀ w ∈ ws, GoodW w) : GoodW (nextWord ws) := by
  have hw1 : GoodW (ws.getD (ws.length - 1) []) :=
    hg _ (getD_mem_of_lt ws _ [] (by omega))
  have hw8 : GoodW (ws.getD (ws.length - 8) []) :=
    hg _ (getD_mem_of_lt ws _ [] (by omega))
  simp only [nextWord]
  by_cases h0 : ws.length % 8 = 0
  · rw [if_pos h0]
    exact goodW_xorBytes hw8
      (goodW_xorBytes (goodW_subWord (goodW_rotWord hw1)) (goodW_rconWord _))
  · rw [if_neg h0]
    by_cases h4 : ws.length % 8 = 4
    · rw [if_pos h4]
      exact goodW_xorBytes hw8 (goodW_subWord hw1)
    · rw [if_neg h4]
      exact goodW_xorBytes hw8 hw1

theorem expandAux_good : ∀ (n : Nat) (ws : List (List Nat)),
    8 ≤ ws.length → (∀ w ∈ ws, GoodW w) →
    (expandAux n ws).length = ws.length + n ∧ ∀ w ∈ expandAux n ws, GoodW w
  | 0, ws, _, hg => ⟨rfl, hg⟩
  | n + 1, ws, h8, hg => by
    have hnext := nextWord_good ws h8 hg
    have h8' : 8 ≤ (ws ++ [nextWord ws]).length := by simp; omega
    have hg' : ∀ w ∈ ws ++ [nextWord ws], GoodW w := by
      intro w hw
      rcases List.mem_append.mp hw with hw | hw
      · exact hg w hw
      · simp only [List.mem_singleton] at hw
        exact hw ▸ hnext
    have ih := expandAux_good n (ws ++ [nextWord ws]) h8' hg'
    refine ⟨?_, ?_⟩
    · rw [show expandAux (n + 1) ws = expandAux n (ws ++ [nextWord ws]) from rfl,
        ih.1]
      simp
      omega
    · rw [show expandAux (n + 1) ws = expandAux n (ws ++ [nextWord ws]) from rfl]
      exact ih.2

theorem chunk4_cons (a b c d : Nat) (rest : List Nat) :
    chunk4 (a :: b :: c :: d :: rest) = [a, b, c, d] :: chunk4 rest := rfl

theorem chunk4_good : ∀ (l : List Nat), l.length % 4 = 0 → (∀ x ∈ l, x < 256) →
    (chunk4 l).length = l.length / 4 ∧ ∀ w ∈ chunk4 l, GoodW w
  | [], _, _ => ⟨rfl, by simp [chunk4]⟩
  | [x1], h, _ => by simp at h
  | [x1, x2], h, _ => by simp at h
  | [x1, x2, x3], h, _ => by simp at h
  | a :: b :: c :: d :: rest, h, hb => by
    have h' : rest.length % 4 = 0 := by
      simp only [List.length_cons] at h
      omega
    have hb' : ∀ x ∈ rest, x < 256 := fun x hx => hb x (by simp [hx])
    have ih := chunk4_good rest h' hb'
    rw [chunk4_cons]
    refine ⟨?_, ?_⟩
    · simp only [List.length_cons, ih.1]
      omega
    · intro w hw
      rcases List.mem_cons.mp hw with rfl | hw
      · refine ⟨rfl, ?_⟩
        intro x hx
        simp only [List.mem_cons, List.not_mem_nil, or_false] at hx
        rcases hx with rfl | rfl | rfl | rfl <;> exact hb _ (by simp)
      · exact ih.2 w hw

theorem chunk16_cons (a0 a1 a2 a3 a4 a5 a6 a7 a8 a9 b0 b1 b2 b3 b4 b5 : Nat) (rest : List Nat) :
    chunk16 (a0 :: a1 :: a2 :: a3 :: a4 :: a5 :: a6 :: a7 :: a8 :: a9 :: b0 :: b1 :: b2 :: b3 :: b4 :: b5 :: rest) = [a0, a1, a2, a3, a4, a5, a6, a7, a8, a9, b0, b1, b2, b3, b4, b5] :: chunk16 rest := rfl

theorem chunk16_good : ∀ (l : List Nat), l.length % 16 = 0 → (∀ x ∈ l, x < 256) →
    ∀ blk ∈ chunk16 l, Good16 blk
  | [], _, _ => by simp [chunk16]
  | [x1], h, _ => by simp at h
  | [x1, x2], h, _ => by simp at h
  | [x1, x2, x3], h, _ => by simp at h
  | [x1, x2, x3, x4], h, _ => by simp at h
  | [x1, x2, x3, x4, x5], h, _ => by simp at h
  | [x1, x2, x3, x4, x5, x6], h, _ => by simp at h
  | [x1, x2, x3, x4, x5, x6, x7], h, _ => by simp at h
  | [x1, x2, x3, x4, x5, x6, x7, x8], h, _ => by simp at h
  | [x1, x2, x3, x4, x5, x6, x7, x8, x9], h, _ => by simp at h
  | [x1, x2, x3, x4, x5, x6, x7, x8, x9, x10], h, _ => by simp at h
  | [x1, x2, x3, x4, x5, x6, x7, x8, x9, x10, x11], h, _ => by simp at h
  | [x1, x2, x3, x4, x5, x6, x7, x8, x9, x10, x11, x12], h, _ => by simp at h
  | [x1, x2, x3, x4, x5, x6, x7, x8, x9, x10, x11, x12, x13], h, _ => by simp at h
  | [x1, x2, x3, x4, x5, x6, x7, x8, x9, x10, x11, x12, x13, x14], h, _ => by simp at h
  | [x1, x2, x3, x4, x5, x6, x7, x8, x9, x10, x11, x12, x13, x14, x15], h, _ => by simp at h
  | a0 :: a1 :: a2 :: a3 :: a4 :: a5 :: a6 :: a7 :: a8 :: a9 :: b0 :: b1 :: b2 :: b3 :: b4 :: b5 :: rest, h, hb => by
    have h' : rest.length % 16 = 0 := by
      simp only [List.length_cons] at h
      omega
    have hb' : ∀ x ∈ rest, x < 256 := fun x hx => hb x (by simp [hx])
    intro blk hbm
    rw [chunk16_cons] at hbm
    rcases List.mem_cons.mp hbm with rfl | hbm
    · refine ⟨rfl, ?_⟩
      intro x hx
      simp only [List.mem_cons, List.not_mem_nil, or_false] at hx
      rcases hx with rfl|rfl|rfl|rfl|rfl|rfl|rfl|rfl|rfl|rfl|rfl|rfl|rfl|rfl|rfl|rfl <;>
        exact hb _ (by simp)
    · exact chunk16_good rest h' hb' blk hbm

theorem chunk16_flatten : ∀ (l : List Nat), l.length % 16 = 0 →
    (chunk16 l).flatten = l
  | [], _ => rfl
  | [x1], h => by simp at h
  | [x1, x2], h => by simp at h
  | [x1, x2, x3], h => by simp at h
  | [x1, x2, x3, x4], h => by simp at h
  | [x1, x2, x3, x4, x5], h => by simp at h
  | [x1, x2, x3, x4, x5, x6], h => by simp at h
  | [x1, x2, x3, x4, x5, x6, x7], h => by simp at h
  | [x1, x2, x3, x4, x5, x6, x7, x8], h => by simp at h
  | [x1, x2, x3, x4, x5, x6, x7, x8, x9], h => by simp at h
  | [x1, x2, x3, x4, x5, x6, x7, x8, x9, x10], h => by simp at h
  | [x1, x2, x3, x4, x5, x6, x7, x8, x9, x10, x11], h => by simp at h
  | [x1, x2, x3, x4, x5, x6, x7, x8, x9, x10, x11, x12], h => by simp at h
  | [x1, x2, x3, x4, x5, x6, x7, x8, x9, x10, x11, x12, x13], h => by simp at h
  | [x1, x2, x3, x4, x5, x6, x7, x8, x9, x10, x11, x12, x13, x14], h => by simp at h
  | [x1, x2, x3, x4, x5, x6, x7, x8, x9, x10, x11, x12, x13, x14, x15], h => by simp at h
  | a0 :: a1 :: a2 :: a3 :: a4 :: a5 :: a6 :: a7 :: a8 :: a9 :: b0 :: b1 :: b2 :: b3 :: b4 :: b5 :: rest, h => by
    have h' : rest.length % 16 = 0 := by
      simp only [List.length_cons] at h
      omega
    rw [chunk16_cons, List.flatten_cons, chunk16_flatten rest h']
    simp

theorem chunk16_flatten_blocks : ∀ (bs : List (List Nat)),
    (∀ b ∈ bs, b.length = 16) → chunk16 bs.flatten = bs
  | [], _ => rfl
  | b :: rest, h => by
    obtain ⟨a0, a1, a2, a3, a4, a5, a6, a7, a8, a9, b0, b1, b2, b3, b4, b5, rfl⟩ := exists16 b (h b (by simp))
    simp only [List.flatten_cons, List.cons_append, List.nil_append]
    rw [chunk16_cons, chunk16_flatten_blocks rest (fun x hx => h x (by simp [hx]))]

theorem flatten_len16 : ∀ (bs : List (List Nat)), (∀ b ∈ bs, b.length = 16) →
    bs.flatten.length = 16 * bs.length
  | [], _ => rfl
  | b :: rest, h => by
    simp only [List.flatten_cons, List.length_append, List.length_cons,
      flatten_len16 rest (fun x hx => h x (by simp [hx])), h b (by simp)]
    ring

theorem flatten_len4 : ∀ (bs : List (List Nat)), (∀ b ∈ bs, b.length = 4) →
    bs.flatten.length = 4 * bs.length
  | [], _ => rfl
  | b :: rest, h => by
    simp only [List.flatten_cons, List.length_append, List.length_cons,
      flatten_len4 rest (fun x hx => h x (by simp [hx])), h b (by simp)]
    ring

theorem keySchedule_good (key : List Nat) (hk : key.length = 32)
    (hb : ∀ x ∈ key, x < 256) : ∀ rk ∈ keySchedule key, Good16 rk := by
  have hc4 := chunk4_good key (by rw [hk]) hb
  have hlen : (chunk4 key).length = 8 := by rw [hc4.1, hk]
  have hexp := expandAux_good 52 (chunk4 key) (by rw [hlen]) hc4.2
  have hfb : ∀ x ∈ (expandAux 52 (chunk4 key)).flatten, x < 256 := by
    intro x hx
    obtain ⟨w, hw, hxw⟩ := List.mem_flatten.mp hx
    exact (hexp.2 w hw).2 x hxw
  have hfl : (expandAux 52 (chunk4 key)).flatten.length = 240 := by
    rw [flatten_len4 (expandAux 52 (chunk4 key)) (fun w hw => (hexp.2 w hw).1),
      hexp.1, hlen]
  intro rk hrk
  exact chunk16_good _ (by rw [hfl]) hfb rk hrk

theorem cbcDec_cbcEnc : ∀ (blks rks : List (List Nat)) (prev : List Nat),
    (∀ rk ∈ rks, Good16 rk) → Good16 prev → (∀ b ∈ blks, Good16 b) →
    cbcDec rks prev (cbcEnc rks prev blks) = blks
  | [], _, _, _, _, _ => rfl
  | blk :: rest, rks, prev, hrk, hprev, hb => by
    have hblk := hb blk (by simp)
    have hx : Good16 (xorBytes blk prev) := good16_xorBytes hblk hprev
    have hc : Good16 (encBlock rks (xorBytes blk prev)) := encBlock_good rks _ hrk hx
    simp only [cbcEnc, cbcDec]
    rw [decBlock_encBlock rks _ hrk hx,
      xorBytes_cancel blk prev (by rw [hblk.1, hprev.1]),
      cbcDec_cbcEnc rest rks _ hrk hc (fun b hbm => hb b (by simp [hbm]))]

theorem cbcEnc_good : ∀ (blks rks : List (List Nat)) (prev : List Nat),
    (∀ rk ∈ rks, Good16 rk) → Good16 prev → (∀ b ∈ blks, Good16 b) →
    ∀ b ∈ cbcEnc rks prev blks, Good16 b
  | [], _, _, _, _, _ => by simp [cbcEnc]
  | blk :: rest, rks, prev, hrk, hprev, hb => by
    have hc : Good16 (encBlock rks (xorBytes blk prev)) :=
      encBlock_good rks _ hrk (good16_xorBytes (hb blk (by simp)) hprev)
    intro b hbm
    simp only [cbcEnc, List.mem_cons] at hbm
    rcases hbm with rfl | hbm
    · exact hc
    · exact cbcEnc_good rest rks _ hrk hc (fun x hx => hb x (by simp [hx])) b hbm

theorem pad16_len (data : List Nat) : (pad16 data).length % 16 = 0 := by
  have h : data.length % 16 < 16 := Nat.mod_lt _ (by omega)
  simp only [pad16, List.length_append, List.length_replicate]
  omega

theorem pad16_bytes (data : List Nat) (hd : ∀ x ∈ data, x < 256) :
    ∀ x ∈ pad16 data, x < 256 := by
  intro x hx
  rcases List.mem_append.mp hx with hx | hx
  · exact hd x hx
  · have := List.eq_of_mem_replicate hx
    omega

theorem unpad16_pad16 (data : List Nat) : unpad16 (pad16 data) = some data := by
  have hm : data.length % 16 < 16 := Nat.mod_lt _ (by omega)
  set p := 16 - data.length % 16 with hp
  obtain ⟨q, hq⟩ : ∃ q, p = q + 1 := ⟨p - 1, by omega⟩
  have hplen : (pad16 data).length = data.length + p := by
    simp [pad16, ← hp]
  have hrev : (pad16 data).reverse = p :: (List.replicate q p ++ data.reverse) := by
    rw [pad16, ← hp, List.reverse_append, List.reverse_replicate, hq,
      List.replicate_succ, List.cons_append]
  have hdrop : (pad16 data).drop ((pad16 data).length - p) = List.replicate p p := by
    rw [hplen, Nat.add_sub_cancel, pad16, ← hp, List.drop_left]
  have htake : (pad16 data).take ((pad16 data).length - p) = data := by
    rw [hplen, Nat.add_sub_cancel, pad16, ← hp, List.take_left]
  rw [unpad16]
  simp only [hrev, List.headD_cons]
  rw [if_pos ⟨by omega, by omega, by rw [hplen]; omega, hdrop⟩, htake]

theorem hexVal_hexDigit : ∀ i : Fin 16, hexVal (hexDigit i.val) = some i.val := by
  decide

theorem hexDecode_hexByte (n : Nat) (h : n < 256) (rest : List Char) (t : List Nat)
    (ht : hexDecode rest = some t) :
    hexDecode (hexByte n ++ rest) = some (n :: t) := by
  have h1 : n / 16 < 16 := by omega
  have h2 : n % 16 < 16 := by omega
  have e1 := hexVal_hexDigit ⟨n / 16, h1⟩
  have e2 := hexVal_hexDigit ⟨n % 16, h2⟩
  have hn : 16 * (n / 16) + n % 16 = n := by omega
  simp only [hexByte, List.cons_append, List.nil_append]
  simp only [hexDecode, e1, e2, ht, hn]

theorem hexDecode_hexEncode : ∀ (l : List Nat), (∀ x ∈ l, x < 256) →
    hexDecode (hexEncode l) = some l
  | [], _ => rfl
  | n :: t, h => by
    have ih := hexDecode_hexEncode t (fun x hx => h x (by simp [hx]))
    simp only [hexEncode, List.map_cons, List.flatten_cons]
    exact hexDecode_hexByte n (h n (by simp)) _ t (by simpa [hexEncode] using ih)

theorem hexDigit_mem (n : Nat) : hexDigit n ∈ hexChars := by
  by_cases h : n < hexChars.length
  · rw [hexDigit, List.getD_eq_getElem?_getD, List.getElem?_eq_getElem h,
      Option.getD_some]
    exact List.getElem_mem h
  · rw [hexDigit, List.getD_eq_getElem?_getD, List.getElem?_eq_none (by omega),
      Option.getD_none]
    decide

theorem hexChars_ne_colon : ∀ c ∈ hexChars, c ≠ ':' := by decide

theorem hexEncode_no_colon (l : List Nat) : ':' ∉ hexEncode l := by
  intro hmem
  simp only [hexEncode, List.mem_flatten, List.mem_map] at hmem
  obtain ⟨blk, ⟨n, hn, rfl⟩, hc⟩ := hmem
  simp only [hexByte, List.mem_cons, List.not_mem_nil, or_false] at hc
  rcases hc with hc | hc <;>
    exact hexChars_ne_colon _ (hexDigit_mem _) hc.symm

theorem splitColonAux_no_colon : ∀ (s acc : List Char), ':' ∉ s →
    splitColonAux s acc = [acc.reverse ++ s]
  | [], acc, _ => by simp [splitColonAux]
  | c :: rest, acc, h => by
    have hc : c ≠ ':' := fun hcc => h (by simp [hcc])
    have hc' : ¬(c = ':') := hc
    simp only [splitColonAux]
    rw [if_neg hc',
      splitColonAux_no_colon rest (c :: acc) (fun hr => h (by simp [hr]))]
    simp

theorem splitColonAux_append : ∀ (a acc b : List Char), ':' ∉ a → ':' ∉ b →
    splitColonAux (a ++ ':' :: b) acc = (acc.reverse ++ a) :: [b]
  | [], acc, b, _, hb => by
    simp only [List.nil_append, splitColonAux, if_true]
    rw [splitColonAux_no_colon b [] hb]
    simp
  | c :: rest, acc, b, ha, hb => by
    have hc : ¬(c = ':') := fun hcc => ha (by simp [hcc])
    simp only [List.cons_append, splitColonAux, List.append_eq]
    rw [if_neg hc,
      splitColonAux_append rest (c :: acc) b (fun hr => ha (by simp [hr])) hb]
    simp

theorem splitColon_append (a b : List Char) (ha : ':' ∉ a) (hb : ':' ∉ b) :
    splitColon (a ++ ':' :: b) = [a, b] := by
  have := splitColonAux_append a [] b ha hb
  simpa [splitColon] using this

/-- C9: for every valid payload (serialized to bytes), decrypting the credential
produced by issuance returns the original payload, and the serialized token has
the form ivHex:cipherHex, embedding the per-issuance random IV as its first
colon-separated component. -/
theorem c9_qr_roundtrip (key iv data : List Nat)
    (hk : key.length = 32) (hkb : ∀ x ∈ key, x < 256)
    (hiv : iv.length = 16) (hivb : ∀ x ∈ iv, x < 256)
    (hdb : ∀ x ∈ data, x < 256) :
    decryptQRData key (generateQRData key iv data) = some data ∧
    ∃ cipherHex, generateQRData key iv data = hexEncode iv ++ ':' :: cipherHex ∧
      ':' ∉ hexEncode iv ∧ ':' ∉ cipherHex := by
  have hrks := keySchedule_good key hk hkb
  have hivg : Good16 iv := ⟨hiv, hivb⟩
  have hpadlen := pad16_len data
  have hpadb := pad16_bytes data hdb
  have hblocks : ∀ b ∈ chunk16 (pad16 data), Good16 b :=
    chunk16_good _ hpadlen hpadb
  have hct : ∀ b ∈ cbcEnc (keySchedule key) iv (chunk16 (pad16 data)), Good16 b :=
    cbcEnc_good _ _ _ hrks hivg hblocks
  set cbs := cbcEnc (keySchedule key) iv (chunk16 (pad16 data)) with hcbs
  have hctb : ∀ x ∈ cbs.flatten, x < 256 := by
    intro x hx
    obtain ⟨b, hb, hxb⟩ := List.mem_flatten.mp hx
    exact (hct b hb).2 x hxb
  have hctlen : cbs.flatten.length = 16 * cbs.length :=
    flatten_len16 cbs (fun b hb => (hct b hb).1)
  constructor
  · simp only [decryptQRData, generateQRData]
    rw [← hcbs,
      splitColon_append _ _ (hexEncode_no_colon iv) (hexEncode_no_colon _)]
    simp only [decryptParts]
    rw [hexDecode_hexEncode iv hivb, hexDecode_hexEncode _ hctb]
    simp only [decryptBytes]
    rw [if_pos ⟨hiv, by rw [hctlen]; omega⟩,
      chunk16_flatten_blocks cbs (fun b hb => (hct b hb).1), hcbs,
      cbcDec_cbcEnc (chunk16 (pad16 data)) (keySchedule key) iv hrks hivg hblocks,
      chunk16_flatten (pad16 data) hpadlen]
    exact unpad16_pad16 data
  · exact ⟨_, rfl, hexEncode_no_colon iv, hexEncode_no_colon _⟩

theorem c9_witness :
    ((List.range 32).length = 32 ∧ (∀ x ∈ List.range 32, x < 256) ∧
      (List.range 16).length = 16 ∧ (∀ x ∈ List.range 16, x < 256) ∧
      ∀ x ∈ ([72, 105] : List Nat), x < 256) ∧
    (decryptQRData (List.range 32)
        (generateQRData (List.range 32) (List.range 16) [72, 105]) =
        some [72, 105] ∧
      ∃ cipherHex, generateQRData (List.range 32) (List.range 16) [72, 105] =
        hexEncode (List.range 16) ++ ':' :: cipherHex ∧
        ':' ∉ hexEncode (List.range 16) ∧ ':' ∉ cipherHex) :=
  ⟨⟨by decide, by decide, by decide, by decide, by decide⟩,
    c9_qr_roundtrip (List.range 32) (List.range 16) [72, 105]
      (by decide) (by decide) (by decide) (by decide) (by decide)⟩

end VSC
